import Mathlib

/-!
Roadengo admin dashboard: candidate selection and data synchronisation.

A shallow embedding of `client/src/pages/AdminDashboard.jsx`.

* Records received from the backend are Lean structures; a field the backend may
  omit is an `Option` (or `JSNum` for the numeric fields, which keeps `undefined`
  and `null` apart because `!==` tells them apart).
* JavaScript numbers that arrive in a JSON payload are finite, so they are embedded
  in `ℚ`; the comparator's subtraction is exact there and has the sign of the
  floating-point difference, which is all `Array.prototype.sort` looks at.
* An `async` function is the ordered list of effects it performs (state setter
  calls, API calls, console output) together with the exception it ends with, if
  any. The dashboard state after a run is the fold of the setter calls.
-/

namespace Roadengo

/-! ## Data model -/

/-- A numeric field of a backend record: missing (`undefined`), `null`, or a number. -/
inductive JSNum where
  | undefined
  | null
  | num (q : ℚ)
  deriving DecidableEq

/-- The value of `x || 0`: `undefined`, `null` and `0` are falsy and yield `0`. -/
def JSNum.orZero : JSNum → ℚ
  | .undefined => 0
  | .null => 0
  | .num q => q

/-- A mechanic record as listed by `apiService.getMechanics()`. `availability` is a
string or missing, `specialization` an array of tags or missing. -/
structure Mechanic where
  _id : String
  name : String
  availability : Option String
  specialization : Option (List String)
  rating : JSNum
  experience : JSNum
  deriving DecidableEq

/-- The task held in `selectedTask`: a listed record spread together with `taskType`. -/
structure Task where
  _id : String
  status : Option String
  assignedMechanic : Option String
  taskType : Option String
  deriving DecidableEq

/-! ## `Array.prototype.sort` -/

/-- `xs.sort(compareFn)`: the language standard requires the sort to be stable and to
place `a` before `b` when `compareFn(a, b) < 0`. It is embedded as the stable
insertion sort for the relation `compareFn(a, b) ≤ 0`. Whenever `compareFn` is a
consistent comparator on the elements of `xs`, every conforming engine returns
this same list. For an inconsistent comparator the standard leaves the order to
the engine, engines do return other orders, and this definition then says nothing
about the code beyond the result being a permutation of `xs`: every statement
below about the order of a result is made where the comparator is consistent on
the input. -/
def sort {α : Type} (compareFn : α → α → ℚ) (xs : List α) : List α :=
  xs.insertionSort (fun a b => compareFn a b ≤ 0)

/-! ## `getFilteredMechanics` (lines 270-290) -/

/-- The array bound to `requiredSpecializations` (lines 275-278). -/
def requiredSpecializations (selectedTask : Task) : List String :=
  if selectedTask.taskType = some "appointment" then ["doorstep-service"]
  else ["emergency-repair"]

/-- The callback given to `.filter` (lines 272-285). A missing `specialization`
short-circuits `?.some(...)` to `undefined`, which `.filter` treats as false. -/
def filterCallback (selectedTask : Task) (mechanic : Mechanic) : Bool :=
  if mechanic.availability ≠ some "available" then false
  else
    match mechanic.specialization with
    | none => false
    | some specs => specs.any (fun spec => (requiredSpecializations selectedTask).contains spec)

/-- The comparator given to `.sort` (lines 286-289). -/
def compareMechanics (a b : Mechanic) : ℚ :=
  if b.rating ≠ a.rating then b.rating.orZero - a.rating.orZero
  else b.experience.orZero - a.experience.orZero

/-- The candidate list computed for the assign modal. -/
def getFilteredMechanics (selectedTask : Task) (mechanics : List Mechanic) : List Mechanic :=
  sort compareMechanics (mechanics.filter (filterCallback selectedTask))

/-! ## Dashboard state, effects and asynchronous procedures -/

/-- An appointment record as listed by `apiService.getAppointments()`. -/
structure Appointment where
  _id : String
  status : Option String
  assignedMechanic : Option String
  deriving DecidableEq

/-- An emergency record as listed by `apiService.getEmergencies()`. -/
structure Emergency where
  _id : String
  status : Option String
  assignedMechanic : Option String
  deriving DecidableEq

/-- A cart inquiry record as listed by `apiService.getInquiries()`. -/
structure Inquiry where
  _id : String
  status : Option String
  deriving DecidableEq

/-- The `specialization` field of the new-mechanic form: an array, or a single
selected value (which may be missing). -/
inductive SpecializationField where
  | array (values : List String)
  | single (value : Option String)
  deriving DecidableEq

/-- The `newMechanic` form state (lines 18-28). -/
structure NewMechanic where
  name : String
  email : String
  phone : String
  password : String
  specialization : SpecializationField
  experience : ℚ
  city : String
  deriving DecidableEq

/-- A value caught by a `catch` clause, with the two properties the handlers read:
`error.message` and `error.response?.data?.message`. -/
structure JSError where
  message : String
  responseMessage : Option String
  deriving DecidableEq

/-- The operations of `apiService` the dashboard invokes, with their arguments. -/
inductive ApiCall where
  | getAppointments
  | getEmergencies
  | getInquiries
  | getMechanics
  | registerMechanic (payload : NewMechanic)
  | assignTask (mechanicId : String) (taskId : String) (taskType : Option String)
  | updateAppointment (id : String) (status : String)
  | updateInquiry (id : String) (status : String)
  deriving DecidableEq

/-- One observable step of a handler: a state setter call, an API request, console
output, an alert, or `suspend`, the point where an `await` on a network request
hands control back to the event loop until the request settles. -/
inductive Effect where
  | setAppointments (value : List Appointment)
  | setEmergencies (value : List Emergency)
  | setInquiries (value : List Inquiry)
  | setMechanics (value : List Mechanic)
  | setActiveTab (value : String)
  | setLoading (value : Bool)
  | setError (value : Option String)
  | setShowAssignModal (value : Bool)
  | setShowCreateMechanicModal (value : Bool)
  | setSelectedTask (value : Option Task)
  | setNewMechanic (value : NewMechanic)
  | request (call : ApiCall)
  | suspend
  | console (message : String)
  | alert (message : String)
  deriving DecidableEq

/-- The `useState` cells of the component (lines 7-28), with their initial values. -/
structure Dashboard where
  appointments : List Appointment := []
  emergencies : List Emergency := []
  inquiries : List Inquiry := []
  mechanics : List Mechanic := []
  activeTab : String := "appointments"
  loading : Bool := false
  error : Option String := none
  showAssignModal : Bool := false
  showCreateMechanicModal : Bool := false
  selectedTask : Option Task := none
  newMechanic : NewMechanic := ⟨"", "", "", "", .array [], 0, ""⟩
  deriving DecidableEq

/-- The state after one effect: a setter replaces its cell, everything else leaves
the state alone. -/
def Dashboard.step (s : Dashboard) : Effect → Dashboard
  | .setAppointments v => { s with appointments := v }
  | .setEmergencies v => { s with emergencies := v }
  | .setInquiries v => { s with inquiries := v }
  | .setMechanics v => { s with mechanics := v }
  | .setActiveTab v => { s with activeTab := v }
  | .setLoading v => { s with loading := v }
  | .setError v => { s with error := v }
  | .setShowAssignModal v => { s with showAssignModal := v }
  | .setShowCreateMechanicModal v => { s with showCreateMechanicModal := v }
  | .setSelectedTask v => { s with selectedTask := v }
  | .setNewMechanic v => { s with newMechanic := v }
  | .request _ => s
  | .suspend => s
  | .console _ => s
  | .alert _ => s

/-- The state after a sequence of effects, applied in order. -/
def Dashboard.run (s : Dashboard) (effects : List Effect) : Dashboard :=
  effects.foldl Dashboard.step s

/-- A run of an `async` function: the effects it performed, in order, and how it
ended (`ok` with its value, or `error` with the exception it rejected with). -/
structure Proc (α : Type) where
  effects : List Effect
  result : Except JSError α

/-- Completion with a value and no effect. -/
def Proc.pure {α : Type} (a : α) : Proc α := ⟨[], .ok a⟩

/-- Sequencing: the second part runs only when the first did not throw. -/
def Proc.bind {α β : Type} (p : Proc α) (f : α → Proc β) : Proc β :=
  match p.result with
  | .error e => ⟨p.effects, .error e⟩
  | .ok a => ⟨p.effects ++ (f a).effects, (f a).result⟩

instance : Monad Proc where
  pure := Proc.pure
  bind := Proc.bind

/-- The `try`/`catch` statement: effects performed before the exception stay performed. -/
def Proc.tryCatch {α : Type} (body : Proc α) (handler : JSError → Proc α) : Proc α :=
  match body.result with
  | .ok _ => body
  | .error e => ⟨body.effects ++ (handler e).effects, (handler e).result⟩

/-- The `finally` clause: it always runs; an exception of its own replaces the
body's completion. -/
def Proc.tryFinally {α β : Type} (body : Proc α) (finalizer : Option α → Proc β) :
    Proc (α × β) :=
  match body.result with
  | .ok a =>
    ⟨body.effects ++ (finalizer (some a)).effects,
      match (finalizer (some a)).result with
      | .ok b => .ok (a, b)
      | .error e => .error e⟩
  | .error e =>
    ⟨body.effects ++ (finalizer none).effects,
      match (finalizer none).result with
      | .ok _ => .error e
      | .error e2 => .error e2⟩

instance : MonadExcept JSError Proc where
  throw e := ⟨[], .error e⟩
  tryCatch := Proc.tryCatch

instance : MonadFinally Proc where
  tryFinally' := Proc.tryFinally

/-- Perform one effect. -/
def emit (e : Effect) : Proc Unit := ⟨[e], .ok ()⟩

/-- The body of an API response. `data` may be missing. -/
structure Response (α : Type) where
  data : Option (List α)

/-- How the four list requests of one refresh settle: each resolves with a response
or rejects. -/
structure ListOutcomes where
  getAppointments : Except JSError (Response Appointment)
  getEmergencies : Except JSError (Response Emergency)
  getInquiries : Except JSError (Response Inquiry)
  getMechanics : Except JSError (Response Mechanic)

/-- An awaited API call (`await apiService.op(...)`): the request is issued, the
caller is suspended, and it resumes with the response or with the rejection thrown. -/
def awaitRequest {α : Type} (call : ApiCall) (settled : Except JSError α) : Proc α :=
  ⟨[.request call, .suspend], settled⟩

/-! ## Synchronisation controller (lines 33-93) -/

/-- Lines 33-42. -/
def fetchMechanics (getMechanics : Except JSError (Response Mechanic)) :
    Proc Unit := do
  try
    let response ← awaitRequest .getMechanics getMechanics
    emit (.setMechanics (response.data.getD []))
    emit (.console "Mechanics fetched:")
  catch _error =>
    emit (.console "Error fetching mechanics:")
    emit (.setMechanics [])

/-- Lines 44-53. -/
def fetchAppointments (getAppointments : Except JSError (Response Appointment)) :
    Proc Unit := do
  try
    let response ← awaitRequest .getAppointments getAppointments
    emit (.setAppointments (response.data.getD []))
    emit (.console "Appointments fetched:")
  catch _error =>
    emit (.console "Error fetching appointments:")
    emit (.setAppointments [])

/-- Lines 55-64. -/
def fetchEmergencies (getEmergencies : Except JSError (Response Emergency)) :
    Proc Unit := do
  try
    let response ← awaitRequest .getEmergencies getEmergencies
    emit (.setEmergencies (response.data.getD []))
    emit (.console "Emergencies fetched:")
  catch _error =>
    emit (.console "Error fetching emergencies:")
    emit (.setEmergencies [])

/-- Lines 66-75. -/
def fetchInquiries (getInquiries : Except JSError (Response Inquiry)) :
    Proc Unit := do
  try
    let response ← awaitRequest .getInquiries getInquiries
    emit (.setInquiries (response.data.getD []))
    emit (.console "Inquiries fetched:")
  catch _error =>
    emit (.console "Error fetching inquiries:")
    emit (.setInquiries [])

/-- The effects an async call performs synchronously, before it first suspends. -/
def beforeSuspend (effects : List Effect) : List Effect :=
  effects.takeWhile (fun e => decide (e ≠ .suspend))

/-- The effects an async call performs once resumed, led by the `suspend` marker
(empty when the call never suspends). -/
def afterSuspend (effects : List Effect) : List Effect :=
  effects.dropWhile (fun e => decide (e ≠ .suspend))

/-- The first exception among the calls, taken in the order they finish. -/
def firstRejection (tasks : List (Proc Unit)) : List Nat → Except JSError Unit
  | [] => .ok ()
  | i :: rest =>
    match tasks[i]? with
    | some ⟨_, .error e⟩ => .error e
    | _ => firstRejection tasks rest

/-- The awaited `Promise.all([...])` over async calls that each await one request.
Building the array runs every call up to its suspension, in array order; the
calls then resume one at a time in the order `order` in which their requests
settle (indices into the array). The combined promise rejects with the first
rejection, and fulfils when every call has finished. -/
def promiseAll (tasks : List (Proc Unit)) (order : List Nat) : Proc Unit :=
  ⟨(tasks.map (fun t => beforeSuspend t.effects)).flatten ++
      (order.map (fun i =>
        match tasks[i]? with
        | some t => afterSuspend t.effects
        | none => [])).flatten,
    firstRejection tasks order⟩

/-- Lines 77-93. `showLoader` defaults to `true` at the call sites that omit it. -/
def fetchAllData (api : ListOutcomes) (order : List Nat) (showLoader : Bool) : Proc Unit := do
  if showLoader then emit (.setLoading true)
  emit (.setError none)
  try
    promiseAll [fetchAppointments api.getAppointments, fetchEmergencies api.getEmergencies,
      fetchInquiries api.getInquiries, fetchMechanics api.getMechanics] order
  catch _err =>
    emit (.console "Dashboard data loading error:")
    emit (.setError (some "Error loading dashboard data. Please refresh the page."))
  finally
    if showLoader then emit (.setLoading false)

/-! ## Polling scheduler (lines 106-145) -/

/-- Line 107: the polling period in milliseconds. -/
def POLL_INTERVAL : Nat := 30000

/-- What a timer callback or the visibility handler invokes, in order. -/
inductive Invocation where
  | consoleLog (message : String)
  | fetchAllData (showLoader : Bool)
  deriving DecidableEq

/-- A repeating timer registered with `setInterval`: its handle, the body of its
callback and its period. -/
structure Interval where
  id : Nat
  callback : List Invocation
  delay : Nat
  deriving DecidableEq

/-- The part of the page the polling effect works on: `intervalRef.current` (`null`
or a timer handle), the page's active intervals, the last handle `setInterval`
gave out, the number of registered `visibilitychange` listeners, and the calls
made so far by timer callbacks and the visibility handler. -/
structure Host where
  intervalRef : Option Nat := none
  intervals : List Interval := []
  lastTimerId : Nat := 0
  visibilityListeners : Nat := 0
  invoked : List Invocation := []
  deriving DecidableEq

/-- Truthiness of `intervalRef.current`: `null` and `0` are falsy. -/
def truthy : Option Nat → Bool
  | none => false
  | some id => id != 0

/-- The host's `setInterval`: registers the timer under a fresh handle, which is
greater than zero, and returns the handle. -/
def setInterval (callback : List Invocation) (delay : Nat) (h : Host) : Nat × Host :=
  (h.lastTimerId + 1,
    { h with
      intervals := h.intervals ++ [⟨h.lastTimerId + 1, callback, delay⟩]
      lastTimerId := h.lastTimerId + 1 })

/-- The host's `clearInterval`: the timer with that handle stops repeating. -/
def clearInterval (id : Nat) (h : Host) : Host :=
  { h with intervals := h.intervals.filter (fun t => t.id != id) }

/-- Lines 110-116. -/
def startPolling (h : Host) : Host :=
  if truthy h.intervalRef then h
  else
    let registered := setInterval
      [.consoleLog "Auto-updating dashboard data...", .fetchAllData false] POLL_INTERVAL h
    { registered.2 with intervalRef := some registered.1 }

/-- Lines 118-123. -/
def stopPolling (h : Host) : Host :=
  match h.intervalRef with
  | some id => if id != 0 then { clearInterval id h with intervalRef := none } else h
  | none => h

/-- Lines 128-137, with the value of `document.visibilityState` when the event fires. -/
def handleVisibilityChange (visibilityState : String) (h : Host) : Host :=
  if visibilityState = "visible" then
    startPolling { h with
      invoked := h.invoked ++ [.consoleLog "Tab visible: refreshing data", .fetchAllData false] }
  else
    stopPolling { h with
      invoked := h.invoked ++ [.consoleLog "Tab hidden: stopping polling"] }

/-- The body of the polling effect, run on mount (lines 126-139). -/
def pollingEffect (h : Host) : Host :=
  { startPolling h with visibilityListeners := (startPolling h).visibilityListeners + 1 }

/-- The cleanup the polling effect returns, run on teardown (lines 141-144). It
removes the listener the effect added. -/
def pollingCleanup (h : Host) : Host :=
  { stopPolling h with visibilityListeners := (stopPolling h).visibilityListeners - 1 }

/-- The host fires the timer with handle `id`: its callback runs if the timer is
still active, and nothing happens otherwise. -/
def fireInterval (id : Nat) (h : Host) : Host :=
  match h.intervals.find? (fun t => t.id == id) with
  | some t => { h with invoked := h.invoked ++ t.callback }
  | none => h

/-- The host dispatches `visibilitychange`: every registered listener runs. -/
def dispatchVisibilityChange (visibilityState : String) (h : Host) : Host :=
  Nat.iterate (handleVisibilityChange visibilityState) h.visibilityListeners h

/-- What can happen to a mounted scheduler. -/
inductive Event where
  | startPolling
  | stopPolling
  | visibilityChange (visibilityState : String)
  | tick (id : Nat)
  | teardown
  deriving DecidableEq

/-- The scheduler after one event. -/
def Host.step (h : Host) : Event → Host
  | .startPolling => Roadengo.startPolling h
  | .stopPolling => Roadengo.stopPolling h
  | .visibilityChange visibilityState => dispatchVisibilityChange visibilityState h
  | .tick id => fireInterval id h
  | .teardown => pollingCleanup h

/-- The scheduler after a sequence of events. -/
def Host.after (h : Host) (events : List Event) : Host :=
  events.foldl Host.step h

/-- The scheduler right after the component mounted, on a page whose `setInterval`
last gave out the handle `lastTimerId`. -/
def mounted (lastTimerId : Nat) : Host :=
  pollingEffect { lastTimerId := lastTimerId }

/-! ## Assignment and registration handlers (lines 148-215) -/

/-- The value of `error.response?.data?.message || error.message`: the backend's
message unless it is missing or empty. -/
def errorText (error : JSError) : String :=
  match error.responseMessage with
  | some message => if message = "" then error.message else message
  | none => error.message

/-- Lines 194-215, for a non-null `selectedTask` (the modal that calls the handler
renders only then). `assignTask` is how the assignment request settles; `api` and
`order` are how the refresh after it goes. -/
def handleAssignTask (selectedTask : Task) (assignTask : Except JSError Unit)
    (api : ListOutcomes) (order : List Nat) (mechanicId : String) : Proc Unit := do
  try
    emit (.setLoading true)
    emit (.setError none)
    awaitRequest (.assignTask mechanicId selectedTask._id selectedTask.taskType) assignTask
    emit (.alert "✅ Task assigned successfully!")
    fetchAllData api order false
    emit (.setShowAssignModal false)
    emit (.setSelectedTask none)
  catch error =>
    emit (.console "Error assigning task:")
    emit (.setError (some ("Assignment failed: " ++ errorText error)))
  finally
    emit (.setLoading false)

/-- The form's empty defaults (lines 175-183). -/
def emptyMechanic : NewMechanic := ⟨"", "", "", "", .array [], 0, ""⟩

/-- Lines 156-159: `specializationValid`. -/
def specializationValid (newMechanic : NewMechanic) : Bool :=
  match newMechanic.specialization with
  | .array values => decide (values.length > 0)
  | .single (some value) => decide (value ≠ "")
  | .single none => false

/-- Lines 168-171: the payload handed to `registerMechanic`. A missing single value
never gets here: validation returns before. -/
def payload (newMechanic : NewMechanic) : NewMechanic :=
  { newMechanic with
    specialization :=
      match newMechanic.specialization with
      | .array values => .array values
      | .single (some value) => .array [value]
      | .single none => .array [] }

/-- Lines 148-191, for the form contents `newMechanic`. `registerMechanic` and
`getMechanics` are how the two requests settle. The leading `e.preventDefault()`
acts on the submit event only. -/
def handleCreateMechanic (newMechanic : NewMechanic) (registerMechanic : Except JSError Unit)
    (getMechanics : Except JSError (Response Mechanic)) : Proc Unit := do
  if newMechanic.name = "" ∨ newMechanic.email = "" ∨ newMechanic.phone = "" ∨
      newMechanic.password = "" then
    emit (.setError (some "Please fill in all required fields"))
  else if ¬ specializationValid newMechanic then
    emit (.setError (some "Please select at least one specialization"))
  else
    try
      emit (.setLoading true)
      awaitRequest (.registerMechanic (payload newMechanic)) registerMechanic
      fetchMechanics getMechanics
      emit (.setShowCreateMechanicModal false)
      emit (.setNewMechanic emptyMechanic)
      emit (.alert "✅ Mechanic created successfully!")
    catch error =>
      emit (.console "Error creating mechanic:")
      emit (.setError (some ("Failed to create mechanic: " ++ errorText error)))
    finally
      emit (.setLoading false)

/-! ## Status updates (lines 218-242) -/

/-- Lines 218-229. `updateAppointment` and `getAppointments` are how the two requests
settle. -/
def updateAppointmentStatus (id status : String) (updateAppointment : Except JSError Unit)
    (getAppointments : Except JSError (Response Appointment)) : Proc Unit := do
  try
    emit (.setLoading true)
    awaitRequest (.updateAppointment id status) updateAppointment
    fetchAppointments getAppointments
  catch _error =>
    emit (.console "Error updating appointment:")
    emit (.setError (some "Failed to update appointment status"))
  finally
    emit (.setLoading false)

/-- Lines 231-242. -/
def updateInquiryStatus (id status : String) (updateInquiry : Except JSError Unit)
    (getInquiries : Except JSError (Response Inquiry)) : Proc Unit := do
  try
    emit (.setLoading true)
    awaitRequest (.updateInquiry id status) updateInquiry
    fetchInquiries getInquiries
  catch _error =>
    emit (.console "Error updating inquiry:")
    emit (.setError (some "Failed to update inquiry status"))
  finally
    emit (.setLoading false)

/-! ## Rendering: status badges and assign buttons -/

/-- The `STATUS` object imported from `../routing/apiClient`, which is not among the
sources: its values are a parameter. A key the object lacks reads as `undefined`,
here `none`. -/
structure StatusNames where
  PENDING : Option String
  CONFIRMED : Option String
  IN_PROGRESS : Option String
  COMPLETED : Option String
  CANCELLED : Option String
  CONTACTED : Option String
  QUOTED : Option String

/-- The style chosen for an appointment's status badge (lines 806-814 and 933-941). -/
def appointmentBadgeStyle (STATUS : StatusNames) (status : Option String) : String :=
  if status = STATUS.PENDING then "bg-yellow-100 text-yellow-800"
  else if status = STATUS.CONFIRMED then "bg-blue-100 text-blue-800"
  else if status = STATUS.IN_PROGRESS then "bg-purple-100 text-purple-800"
  else if status = STATUS.COMPLETED then "bg-green-100 text-green-800"
  else "bg-gray-100 text-gray-800"

/-- The style chosen for an inquiry's status badge (lines 1162-1170 and its table twin). -/
def inquiryBadgeStyle (STATUS : StatusNames) (status : Option String) : String :=
  if status = STATUS.PENDING then "bg-yellow-100 text-yellow-800"
  else if status = STATUS.CONTACTED then "bg-blue-100 text-blue-800"
  else if status = STATUS.QUOTED then "bg-purple-100 text-purple-800"
  else if status = STATUS.COMPLETED then "bg-green-100 text-green-800"
  else "bg-gray-100 text-gray-800"

/-- The badge's `className`: the fixed classes followed by the chosen style. -/
def badgeClassName (style : String) : String :=
  "inline-flex px-2 py-1 text-xs font-semibold rounded-full " ++ style

/-- The badge's text, `status?.toUpperCase()`: nothing for a missing status.
`String.prototype.toUpperCase` is the host's and is a parameter. -/
def badgeText (toUpperCase : String → String) (status : Option String) : Option String :=
  status.map toUpperCase

/-- Truthiness of a string-valued field: missing and the empty string are falsy. -/
def isSet : Option String → Bool
  | none => false
  | some value => value != ""

/-- Whether the "Assign Mechanic" button is rendered for a record
(`!record.assignedMechanic && ...`, lines 862, 974, 1044, 1120). -/
def assignButtonOffered (assignedMechanic : Option String) : Bool :=
  !isSet assignedMechanic

/-- The `onClick` of an appointment's "Assign Mechanic" button (lines 864-868). -/
def onAssignAppointmentClick (appointment : Appointment) : List Effect :=
  [.setSelectedTask
      (some ⟨appointment._id, appointment.status, appointment.assignedMechanic,
        some "appointment"⟩),
    .setShowAssignModal true, .setError none]

/-- The `onClick` of an emergency's "Assign Mechanic" button (lines 1047-1051). -/
def onAssignEmergencyClick (emergency : Emergency) : List Effect :=
  [.setSelectedTask
      (some ⟨emergency._id, emergency.status, emergency.assignedMechanic, some "emergency"⟩),
    .setShowAssignModal true, .setError none]

/-- The `onClick` of the assign modal's close button (lines 303-307). -/
def onCloseAssignModalClick : List Effect :=
  [.setShowAssignModal false, .setSelectedTask none, .setError none]

/-! ## The component's actions -/

/-- Everything that writes the component's state: the refresh (run on mount, by the
poll timer and by the visibility handler), the handlers, and the inline `onClick`
and `onChange` callbacks, each with the outcomes of the requests it makes. -/
inductive Action where
  | fetchAllData (api : ListOutcomes) (order : List Nat) (showLoader : Bool)
  | handleCreateMechanic (registerMechanic : Except JSError Unit)
      (getMechanics : Except JSError (Response Mechanic))
  | handleAssignTask (mechanic : Mechanic) (assignTask : Except JSError Unit)
      (api : ListOutcomes) (order : List Nat)
  | updateAppointmentStatus (appointment : Appointment) (status : String)
      (updateAppointment : Except JSError Unit)
      (getAppointments : Except JSError (Response Appointment))
  | updateInquiryStatus (inquiry : Inquiry) (status : String)
      (updateInquiry : Except JSError Unit)
      (getInquiries : Except JSError (Response Inquiry))
  | assignAppointment (appointment : Appointment)
  | assignEmergency (emergency : Emergency)
  | closeAssignModal
  | dismissError
  | setActiveTab (tab : String)
  | openCreateMechanicModal
  | closeCreateMechanicModal
  | editNewMechanic (value : NewMechanic)

/-- The effects of an action in state `s`. A control acts only when it is rendered:
the per-record controls for the records of the collection (`appointments.map`,
`emergencies.map`, `inquiries.map`), the assign button when `assignButtonOffered`,
the candidate cards inside the assign modal (line 268) for the candidates of
`getFilteredMechanics`, the create form inside its modal (line 1378). Conditions
that only hide or disable more controls (the active tab, `disabled={loading}`) are
left out, so the actions here include all the component offers. Each action's
effects are taken as one block. -/
def Action.effects (s : Dashboard) : Action → List Effect
  | .fetchAllData api order showLoader => (Roadengo.fetchAllData api order showLoader).effects
  | .handleCreateMechanic registerMechanic getMechanics =>
    if s.showCreateMechanicModal then
      (Roadengo.handleCreateMechanic s.newMechanic registerMechanic getMechanics).effects
    else []
  | .handleAssignTask mechanic assignTask api order =>
    match s.selectedTask with
    | some selectedTask =>
      if s.showAssignModal ∧ mechanic ∈ getFilteredMechanics selectedTask s.mechanics then
        (Roadengo.handleAssignTask selectedTask assignTask api order mechanic._id).effects
      else []
    | none => []
  | .updateAppointmentStatus appointment status updateAppointment getAppointments =>
    if appointment ∈ s.appointments then
      (Roadengo.updateAppointmentStatus appointment._id status updateAppointment
        getAppointments).effects
    else []
  | .updateInquiryStatus inquiry status updateInquiry getInquiries =>
    if inquiry ∈ s.inquiries then
      (Roadengo.updateInquiryStatus inquiry._id status updateInquiry getInquiries).effects
    else []
  | .assignAppointment appointment =>
    if appointment ∈ s.appointments ∧ assignButtonOffered appointment.assignedMechanic then
      onAssignAppointmentClick appointment
    else []
  | .assignEmergency emergency =>
    if emergency ∈ s.emergencies ∧ assignButtonOffered emergency.assignedMechanic then
      onAssignEmergencyClick emergency
    else []
  | .closeAssignModal => onCloseAssignModalClick
  | .dismissError => [.setError none]
  | .setActiveTab tab => [.setActiveTab tab]
  | .openCreateMechanicModal => [.setShowCreateMechanicModal true]
  | .closeCreateMechanicModal => [.setShowCreateMechanicModal false]
  | .editNewMechanic value => [.setNewMechanic value]

/-- The state after an action. -/
def Dashboard.perform (s : Dashboard) (action : Action) : Dashboard :=
  s.run (action.effects s)

/-- The state after a sequence of actions. -/
def Dashboard.performAll (s : Dashboard) (actions : List Action) : Dashboard :=
  actions.foldl Dashboard.perform s

/-! ## Arrays as objects: what `getFilteredMechanics` does to memory -/

/-- The mechanic arrays in memory; a reference is an index into `arrays`. -/
structure Heap where
  arrays : List (List Mechanic)

/-- The contents of the array behind a reference. -/
def Heap.read (h : Heap) (ref : Nat) : List Mechanic :=
  h.arrays.getD ref []

/-- `Array.prototype.filter`: allocates a new array for the result and returns its
reference; the receiver is not written. -/
def Heap.filter (h : Heap) (ref : Nat) (callback : Mechanic → Bool) : Nat × Heap :=
  (h.arrays.length, ⟨h.arrays ++ [(h.read ref).filter callback]⟩)

/-- `Array.prototype.sort`: sorts the receiver in place and returns its reference. -/
def Heap.sort (h : Heap) (ref : Nat) (compareFn : Mechanic → Mechanic → ℚ) : Nat × Heap :=
  (ref, ⟨h.arrays.set ref (Roadengo.sort compareFn (h.read ref))⟩)

/-- Lines 270-290 on the heap: `mechanics` is the reference held by the state cell;
the result is the reference of the candidate array. -/
def getFilteredMechanicsOnHeap (selectedTask : Task) (mechanics : Nat) (h : Heap) :
    Nat × Heap :=
  let filtered := h.filter mechanics (filterCallback selectedTask)
  filtered.2.sort filtered.1 compareMechanics

/-! ## Calls in flight -/

/-- The effects of an invocation made by a timer callback or the visibility handler,
for given outcomes of the requests it starts. -/
def Invocation.effects (api : ListOutcomes) (order : List Nat) : Invocation → List Effect
  | .consoleLog message => [.console message]
  | .fetchAllData showLoader => (Roadengo.fetchAllData api order showLoader).effects

/-- A trace cut at its suspension points. Each part runs without interruption; a
part after the first runs when the request it waits for has settled. -/
def segments : List Effect → List (List Effect)
  | [] => [[]]
  | e :: rest =>
    match segments rest with
    | [] => [[e]]
    | segment :: more =>
      if e = .suspend then [] :: (e :: segment) :: more else (e :: segment) :: more

/-- The page: the scheduler, the component's state, and for every async call started
so far the parts of it that have not run yet. The source keeps no handle on a call
in flight, so nothing can remove or change an entry of `pending` except running it. -/
structure Page where
  host : Host := {}
  dashboard : Dashboard := {}
  pending : List (List (List Effect)) := []

/-- An async call with trace `trace` is made: its first part runs at once, the rest
waits. -/
def Page.call (p : Page) (trace : List Effect) : Page :=
  match segments trace with
  | [] => p
  | first :: rest =>
    { p with dashboard := p.dashboard.run first, pending := p.pending ++ [rest] }

/-- The request that call number `i` waits for settles: its next part runs. -/
def Page.resume (p : Page) (i : Nat) : Page :=
  match p.pending[i]? with
  | some (segment :: rest) =>
    { p with dashboard := p.dashboard.run segment, pending := p.pending.set i rest }
  | _ => p

/-- Requests settle in the given order of calls. -/
def Page.resumeAll (p : Page) (schedule : List Nat) : Page :=
  schedule.foldl Page.resume p

/-- A scheduler event happens on the page: the scheduler takes its step, and what
the step invoked is started as a call, with `api` and `order` saying how its
requests will go. -/
def Page.hostStep (p : Page) (api : ListOutcomes) (order : List Nat) (e : Event) : Page :=
  let invoked := ((p.host.step e).invoked.drop p.host.invoked.length)
  if invoked = [] then { p with host := p.host.step e }
  else
    { p with host := p.host.step e }.call
      (invoked.map (Invocation.effects api order)).flatten

/-! ## Derived notions used in the statements -/

/-- The list a fetch hands to its setter once the request has settled: the
response's `data`, or the empty list when `data` is missing (`response.data || []`)
or the request was rejected (the `catch` branch). The `*_run` theorems below show
that this is what each fetch function writes. -/
def stored {α : Type} (settled : Except JSError (Response α)) : List α :=
  match settled with
  | .ok response => response.data.getD []
  | .error _ => []

/-- The two states of the scheduler. STOPPED: the handle is `null` and no timer is
active. RUNNING: the handle is the non-zero handle of the one active timer, which
is the poll timer `startPolling` registers. -/
def Coherent (h : Host) : Prop :=
  match h.intervalRef with
  | none => h.intervals = []
  | some id =>
    id ≠ 0 ∧
      h.intervals =
        [⟨id, [.consoleLog "Auto-updating dashboard data...", .fetchAllData false],
          POLL_INTERVAL⟩]

instance (h : Host) : Decidable (Coherent h) := by
  unfold Coherent
  cases h.intervalRef <;> infer_instance

/-- Whether an effect is a call of `apiService.assignTask`. -/
def isAssignTaskRequest : Effect → Bool
  | .request (.assignTask _ _ _) => true
  | _ => false

/-- Whether an effect is a request to the API client. -/
def isRequest : Effect → Bool
  | .request _ => true
  | _ => false

/-- Whether an effect writes one of the four collections. -/
def isCollectionWrite : Effect → Bool
  | .setAppointments _ => true
  | .setEmergencies _ => true
  | .setInquiries _ => true
  | .setMechanics _ => true
  | _ => false

/-- Whether an effect writes one of the four collections or the loading or error
flag. -/
def isSharedWrite : Effect → Bool
  | .setLoading _ => true
  | .setError _ => true
  | e => isCollectionWrite e

/-- The writes singled out by `p` all happen inside the run `refresh` of a refresh
operation that the trace contains: nothing before or after it is such a write. An
empty `refresh` stands for a trace that invokes no refresh. -/
def WritesOnlyIn (p : Effect → Bool) (trace refresh : List Effect) : Prop :=
  ∃ before after, trace = before ++ refresh ++ after ∧ ∀ e ∈ before ++ after, p e = false

/-! ## Orders the specification speaks of -/

/-- The order the specification asks of the candidate list: `a` may stand before `b`
when `a` has the higher rating, or the same rating and at least the experience of
`b`, a missing value counting as 0. -/
def RatingThenExperienceDesc (a b : Mechanic) : Prop :=
  b.rating.orZero < a.rating.orZero ∨
    (b.rating.orZero = a.rating.orZero ∧ b.experience.orZero ≤ a.experience.orZero)

instance : DecidableRel RatingThenExperienceDesc := fun a b => by
  unfold RatingThenExperienceDesc
  infer_instance

/-! ## Facts about the sort -/

theorem sort_perm {α : Type} (compareFn : α → α → ℚ) (xs : List α) :
    (sort compareFn xs).Perm xs :=
  List.perm_insertionSort _ xs

theorem mem_sort {α : Type} (compareFn : α → α → ℚ) (xs : List α) (x : α) :
    x ∈ sort compareFn xs ↔ x ∈ xs :=
  (sort_perm compareFn xs).mem_iff

/-! ## Candidate selection -/

/-- What the filter callback decides, spelled out. -/
theorem filterCallback_iff (selectedTask : Task) (m : Mechanic) :
    filterCallback selectedTask m = true ↔
      m.availability = some "available" ∧
        ∃ specs, m.specialization = some specs ∧
          (if selectedTask.taskType = some "appointment" then "doorstep-service" ∈ specs
           else "emergency-repair" ∈ specs) := by
  unfold filterCallback requiredSpecializations
  by_cases ha : m.availability = some "available"
  · cases hs : m.specialization with
    | none => simp [ha]
    | some specs =>
      by_cases ht : selectedTask.taskType = some "appointment"
      · simp [ha, ht]
      · simp [ha, ht]
  · simp [ha]

/-- C1. A mechanic is a candidate exactly when it is listed, its availability is
"available" and its specialization list contains "doorstep-service" (task type
"appointment") or "emergency-repair" (any other task type); a qualifying mechanic
occurs among the candidates as often as in the input, any other mechanic zero
times, and a mechanic without a specialization is never a candidate. -/
theorem getFilteredMechanics_candidates (selectedTask : Task) (mechanics : List Mechanic)
    (m : Mechanic) :
    (m ∈ getFilteredMechanics selectedTask mechanics ↔
      m ∈ mechanics ∧ m.availability = some "available" ∧
        ∃ specs, m.specialization = some specs ∧
          (if selectedTask.taskType = some "appointment" then "doorstep-service" ∈ specs
           else "emergency-repair" ∈ specs)) ∧
    ((getFilteredMechanics selectedTask mechanics).count m =
      if m.availability = some "available" ∧
          ∃ specs, m.specialization = some specs ∧
            (if selectedTask.taskType = some "appointment" then "doorstep-service" ∈ specs
             else "emergency-repair" ∈ specs)
        then mechanics.count m else 0) ∧
    ¬ (m.specialization = none ∧ m ∈ getFilteredMechanics selectedTask mechanics) := by
  have hmem : m ∈ getFilteredMechanics selectedTask mechanics ↔
      m ∈ mechanics ∧ filterCallback selectedTask m = true := by
    unfold getFilteredMechanics
    rw [mem_sort, List.mem_filter]
  refine ⟨?_, ?_, ?_⟩
  · rw [hmem, filterCallback_iff]
  · unfold getFilteredMechanics
    rw [(sort_perm _ _).count_eq]
    by_cases hq : filterCallback selectedTask m = true
    · rw [List.count_filter hq, if_pos ((filterCallback_iff _ _).1 hq)]
    · rw [if_neg (fun h => hq ((filterCallback_iff _ _).2 h))]
      exact List.count_eq_zero_of_not_mem (fun hin => hq (List.mem_filter.1 hin).2)
  · rintro ⟨hnone, hin⟩
    rw [hmem, filterCallback_iff] at hin
    obtain ⟨_, _, specs, hs, _⟩ := hin
    rw [hnone] at hs
    cases hs

/-- C2. A mechanic whose availability is not "available" is never a candidate,
whatever the task and whatever its specialization. -/
theorem getFilteredMechanics_excludes_unavailable (selectedTask : Task)
    (mechanics : List Mechanic) (m : Mechanic) (h : m.availability ≠ some "available") :
    m ∉ getFilteredMechanics selectedTask mechanics := by
  intro hin
  unfold getFilteredMechanics at hin
  rw [mem_sort, List.mem_filter, filterCallback_iff] at hin
  exact h hin.2.1

/-- A busy mechanic with the required skill, listed for an appointment, is left out. -/
theorem getFilteredMechanics_excludes_unavailable_witness :
    (some "busy" : Option String) ≠ some "available" ∧
      (⟨"m1", "Asha", some "busy", some ["doorstep-service"], .num 5, .num 9⟩ : Mechanic) ∉
        getFilteredMechanics ⟨"t1", none, none, some "appointment"⟩
          [⟨"m1", "Asha", some "busy", some ["doorstep-service"], .num 5, .num 9⟩,
           ⟨"m2", "Ravi", some "available", some ["doorstep-service"], .num 4, .num 2⟩] :=
  ⟨by decide,
    getFilteredMechanics_excludes_unavailable _ _
      ⟨"m1", "Asha", some "busy", some ["doorstep-service"], .num 5, .num 9⟩ (by decide)⟩

/-! ### Ordering of the candidates -/

theorem orderedInsert_congr {α : Type} (r s : α → α → Prop) [DecidableRel r] [DecidableRel s]
    (a : α) (l : List α) (h : ∀ b ∈ l, (r a b ↔ s a b)) :
    l.orderedInsert r a = l.orderedInsert s a := by
  induction l with
  | nil => rfl
  | cons b t ih =>
    have hb : r a b ↔ s a b := h b (List.mem_cons_self _ _)
    have ht : ∀ c ∈ t, (r a c ↔ s a c) := fun c hc => h c (List.mem_cons_of_mem _ hc)
    by_cases hr : r a b
    · simp [List.orderedInsert, hr, hb.1 hr]
    · have hs : ¬ s a b := fun hs => hr (hb.2 hs)
      simp [List.orderedInsert, hr, hs, ih ht]

theorem insertionSort_congr {α : Type} (r s : α → α → Prop) [DecidableRel r] [DecidableRel s]
    (l : List α) (h : ∀ a ∈ l, ∀ b ∈ l, (r a b ↔ s a b)) :
    l.insertionSort r = l.insertionSort s := by
  induction l with
  | nil => rfl
  | cons a t ih =>
    have ht : ∀ x ∈ t, ∀ y ∈ t, (r x y ↔ s x y) := fun x hx y hy =>
      h x (List.mem_cons_of_mem _ hx) y (List.mem_cons_of_mem _ hy)
    simp only [List.insertionSort]
    rw [ih ht]
    apply orderedInsert_congr
    intro b hb
    exact h a (List.mem_cons_self _ _) b
      (List.mem_cons_of_mem _ ((List.mem_insertionSort s).1 hb))

instance : IsTotal Mechanic RatingThenExperienceDesc where
  total a b := by
    unfold RatingThenExperienceDesc
    rcases lt_trichotomy a.rating.orZero b.rating.orZero with h | h | h
    · exact Or.inr (Or.inl h)
    · rcases le_total a.experience.orZero b.experience.orZero with he | he
      · exact Or.inr (Or.inr ⟨h, he⟩)
      · exact Or.inl (Or.inr ⟨h.symm, he⟩)
    · exact Or.inl (Or.inl h)

instance : IsTrans Mechanic RatingThenExperienceDesc where
  trans a b c := by
    unfold RatingThenExperienceDesc
    rintro (h1 | ⟨h1, e1⟩) (h2 | ⟨h2, e2⟩)
    · exact Or.inl (lt_trans h2 h1)
    · exact Or.inl (h2 ▸ h1)
    · exact Or.inl (h1 ▸ h2)
    · exact Or.inr ⟨h2.trans h1, le_trans e2 e1⟩

/-- On mechanics whose ratings are numbers the comparator is non-positive exactly
when the first argument may stand first. -/
theorem compareMechanics_nonpos_iff (a b : Mechanic) (qa qb : ℚ)
    (ha : a.rating = .num qa) (hb : b.rating = .num qb) :
    compareMechanics a b ≤ 0 ↔ RatingThenExperienceDesc a b := by
  unfold compareMechanics RatingThenExperienceDesc
  rw [ha, hb]
  simp only [JSNum.orZero]
  by_cases hq : qb = qa
  · subst hq
    simp
  · have hne : JSNum.num qb ≠ JSNum.num qa := fun h => hq (JSNum.num.inj h)
    rw [if_pos hne]
    constructor
    · intro h
      exact Or.inl (lt_of_le_of_ne (by linarith) hq)
    · rintro (h | ⟨h, _⟩)
      · linarith
      · exact absurd h hq

/-- When every candidate has a numeric rating the candidates are listed by rating
and then experience, highest first. -/
theorem getFilteredMechanics_sorted_of_numeric (selectedTask : Task) (mechanics : List Mechanic)
    (h : ∀ m ∈ mechanics, filterCallback selectedTask m = true → ∃ q, m.rating = .num q) :
    (getFilteredMechanics selectedTask mechanics).Pairwise RatingThenExperienceDesc := by
  unfold getFilteredMechanics sort
  rw [insertionSort_congr _ RatingThenExperienceDesc]
  · exact List.sorted_insertionSort RatingThenExperienceDesc _
  · intro a ha b hb
    obtain ⟨ha1, ha2⟩ := List.mem_filter.1 ha
    obtain ⟨hb1, hb2⟩ := List.mem_filter.1 hb
    obtain ⟨qa, hqa⟩ := h a ha1 ha2
    obtain ⟨qb, hqb⟩ := h b hb1 hb2
    exact compareMechanics_nonpos_iff a b qa qb hqa hqb

theorem perm_three_cases {α : Type} {a b c : α} {l : List α} (hab : a ≠ b) (hac : a ≠ c)
    (hbc : b ≠ c) (h : l.Perm [a, b, c]) :
    l = [a, b, c] ∨ l = [a, c, b] ∨ l = [b, a, c] ∨ l = [b, c, a] ∨ l = [c, a, b] ∨
      l = [c, b, a] := by
  have hlen := h.length_eq
  match l, h, hlen with
  | [x, y, z], h, _ =>
    have hx : x ∈ [a, b, c] := h.subset (by simp)
    have hy : y ∈ [a, b, c] := h.subset (by simp)
    have hz : z ∈ [a, b, c] := h.subset (by simp)
    have hnd : [x, y, z].Nodup := h.nodup_iff.2 (by simp [hab, hac, hbc])
    simp only [List.mem_cons, List.mem_singleton, List.not_mem_nil, or_false] at hx hy hz
    simp only [List.nodup_cons, List.mem_cons, List.mem_singleton, List.not_mem_nil,
      not_or, not_false_eq_true, List.nodup_nil, and_true, or_false] at hnd
    obtain ⟨⟨hxy, hxz⟩, hyz⟩ := hnd
    rcases hx with rfl | rfl | rfl <;> rcases hy with rfl | rfl | rfl <;>
      rcases hz with rfl | rfl | rfl <;> simp_all

/-- C3. When every qualifying mechanic has a numeric rating, the candidates are in
descending order of rating and, among equal ratings, in descending order of
experience (a missing experience counting as 0). In particular, whatever the
input order of three available, qualified mechanics A (rating 4, experience 2),
B (rating 4, experience 5) and C (rating 5, experience 1), the result is [C, B, A]. -/
theorem getFilteredMechanics_rating_then_experience :
    (∀ (selectedTask : Task) (mechanics : List Mechanic),
      (∀ m ∈ mechanics, filterCallback selectedTask m = true → ∃ q, m.rating = .num q) →
        (getFilteredMechanics selectedTask mechanics).Pairwise RatingThenExperienceDesc) ∧
    (∀ (selectedTask : Task) (a b c : Mechanic) (mechanics : List Mechanic),
      filterCallback selectedTask a = true → filterCallback selectedTask b = true →
      filterCallback selectedTask c = true →
      a.rating = .num 4 → a.experience = .num 2 →
      b.rating = .num 4 → b.experience = .num 5 →
      c.rating = .num 5 → c.experience = .num 1 →
      mechanics.Perm [a, b, c] →
        getFilteredMechanics selectedTask mechanics = [c, b, a]) := by
  refine ⟨getFilteredMechanics_sorted_of_numeric, ?_⟩
  intro t a b c l fa fb fc ra ea rb eb rc ec hperm
  have hab : a ≠ b := fun h => by rw [h, eb] at ea; simp at ea
  have hac : a ≠ c := fun h => by rw [h, rc] at ra; simp at ra
  have hbc : b ≠ c := fun h => by rw [h, rc] at rb; simp at rb
  have cab : ¬ compareMechanics a b ≤ 0 := by
    simp [compareMechanics, ra, ea, rb, eb, JSNum.orZero]; norm_num
  have cba : compareMechanics b a ≤ 0 := by
    simp [compareMechanics, ra, ea, rb, eb, JSNum.orZero]; norm_num
  have cac : ¬ compareMechanics a c ≤ 0 := by
    simp [compareMechanics, ra, ea, rc, ec, JSNum.orZero]; norm_num
  have cca : compareMechanics c a ≤ 0 := by
    simp [compareMechanics, ra, ea, rc, ec, JSNum.orZero]; norm_num
  have cbc : ¬ compareMechanics b c ≤ 0 := by
    simp [compareMechanics, rb, eb, rc, ec, JSNum.orZero]; norm_num
  have ccb : compareMechanics c b ≤ 0 := by
    simp [compareMechanics, rb, eb, rc, ec, JSNum.orZero]; norm_num
  rcases perm_three_cases hab hac hbc hperm with rfl | rfl | rfl | rfl | rfl | rfl <;>
    simp [getFilteredMechanics, sort, List.filter, fa, fb, fc, cab, cba, cac, cca, cbc, ccb]

/-- The three mechanics of the specification's example, listed as [A, B, C], all
with numeric ratings: the result is sorted and equals [C, B, A]. -/
theorem getFilteredMechanics_rating_then_experience_witness :
    (getFilteredMechanics ⟨"t1", none, none, some "appointment"⟩
        [⟨"a", "A", some "available", some ["doorstep-service"], .num 4, .num 2⟩,
         ⟨"b", "B", some "available", some ["doorstep-service"], .num 4, .num 5⟩,
         ⟨"c", "C", some "available", some ["doorstep-service"], .num 5, .num 1⟩]).Pairwise
      RatingThenExperienceDesc ∧
    getFilteredMechanics ⟨"t1", none, none, some "appointment"⟩
        [⟨"a", "A", some "available", some ["doorstep-service"], .num 4, .num 2⟩,
         ⟨"b", "B", some "available", some ["doorstep-service"], .num 4, .num 5⟩,
         ⟨"c", "C", some "available", some ["doorstep-service"], .num 5, .num 1⟩] =
      [⟨"c", "C", some "available", some ["doorstep-service"], .num 5, .num 1⟩,
       ⟨"b", "B", some "available", some ["doorstep-service"], .num 4, .num 5⟩,
       ⟨"a", "A", some "available", some ["doorstep-service"], .num 4, .num 2⟩] :=
  ⟨getFilteredMechanics_rating_then_experience.1 _ _ (by
      intro m hm _
      simp only [List.mem_cons, List.mem_singleton, List.not_mem_nil, or_false] at hm
      rcases hm with rfl | rfl | rfl
      · exact ⟨4, rfl⟩
      · exact ⟨4, rfl⟩
      · exact ⟨5, rfl⟩),
    getFilteredMechanics_rating_then_experience.2 _ _ _ _ _ (by decide) (by decide) (by decide)
      rfl rfl rfl rfl rfl rfl (List.Perm.refl _)⟩

/-- C4. Two available, qualified mechanics, the first without a rating and with
experience 1, the second with rating 0 and experience 5: the comparator sees two
different raw ratings, returns the difference of the defaulted ratings, which is 0,
and never looks at experience. The candidates stay in input order, so their ratings
counted with the default are equal while their experience ascends. -/
theorem getFilteredMechanics_missing_rating_skips_experience :
    compareMechanics
        ⟨"m1", "Asha", some "available", some ["doorstep-service"], .undefined, .num 1⟩
        ⟨"m2", "Ravi", some "available", some ["doorstep-service"], .num 0, .num 5⟩ = 0 ∧
    getFilteredMechanics ⟨"t1", none, none, some "appointment"⟩
        [⟨"m1", "Asha", some "available", some ["doorstep-service"], .undefined, .num 1⟩,
         ⟨"m2", "Ravi", some "available", some ["doorstep-service"], .num 0, .num 5⟩] =
      [⟨"m1", "Asha", some "available", some ["doorstep-service"], .undefined, .num 1⟩,
       ⟨"m2", "Ravi", some "available", some ["doorstep-service"], .num 0, .num 5⟩] ∧
    ¬ (getFilteredMechanics ⟨"t1", none, none, some "appointment"⟩
        [⟨"m1", "Asha", some "available", some ["doorstep-service"], .undefined, .num 1⟩,
         ⟨"m2", "Ravi", some "available", some ["doorstep-service"], .num 0, .num 5⟩]).Pairwise
      RatingThenExperienceDesc := by
  refine ⟨?_, ?_, ?_⟩ <;>
    simp [getFilteredMechanics, sort, filterCallback, requiredSpecializations,
      compareMechanics, JSNum.orZero, RatingThenExperienceDesc]

/-- C5. Writing the missing rating out as 0 changes the order. With a `null` rating
the first mechanic stays ahead of the second (rating 0, more experience); with the
rating written as 0 the same two mechanics come out in the opposite order. The raw
`null` is an operand of the comparator's `!==` test. -/
theorem getFilteredMechanics_explicit_zero_reorders :
    getFilteredMechanics ⟨"t1", none, none, some "emergency"⟩
        [⟨"m1", "Asha", some "available", some ["emergency-repair"], .null, .num 1⟩,
         ⟨"m2", "Ravi", some "available", some ["emergency-repair"], .num 0, .num 5⟩] =
      [⟨"m1", "Asha", some "available", some ["emergency-repair"], .null, .num 1⟩,
       ⟨"m2", "Ravi", some "available", some ["emergency-repair"], .num 0, .num 5⟩] ∧
    getFilteredMechanics ⟨"t1", none, none, some "emergency"⟩
        [⟨"m1", "Asha", some "available", some ["emergency-repair"], .num 0, .num 1⟩,
         ⟨"m2", "Ravi", some "available", some ["emergency-repair"], .num 0, .num 5⟩] =
      [⟨"m2", "Ravi", some "available", some ["emergency-repair"], .num 0, .num 5⟩,
       ⟨"m1", "Asha", some "available", some ["emergency-repair"], .num 0, .num 1⟩] := by
  refine ⟨?_, ?_⟩ <;>
    simp [getFilteredMechanics, sort, filterCallback, requiredSpecializations,
      compareMechanics, JSNum.orZero]

/-! ### Stability -/

theorem filter_orderedInsert_of_pos {α : Type} (r : α → α → Prop) [DecidableRel r]
    (p : α → Bool) (a : α) (l : List α) (hp : p a = true)
    (h : ∀ b ∈ l, p b = true → r a b) :
    (l.orderedInsert r a).filter p = a :: l.filter p := by
  induction l with
  | nil => simp [hp]
  | cons b t ih =>
    have ht : ∀ c ∈ t, p c = true → r a c := fun c hc => h c (List.mem_cons_of_mem _ hc)
    by_cases hr : r a b
    · simp [List.orderedInsert, hr, List.filter_cons, hp]
    · have hb : ¬ p b = true := fun hb => hr (h b (List.mem_cons_self _ _) hb)
      simp [List.orderedInsert, hr, List.filter_cons, hb, ih ht]

theorem filter_orderedInsert_of_neg {α : Type} (r : α → α → Prop) [DecidableRel r]
    (p : α → Bool) (a : α) (l : List α) (hp : ¬ p a = true) :
    (l.orderedInsert r a).filter p = l.filter p := by
  induction l with
  | nil => simp [hp]
  | cons b t ih =>
    by_cases hr : r a b
    · simp [List.orderedInsert, hr, List.filter_cons, hp]
    · by_cases hb : p b = true
      · simp [List.orderedInsert, hr, List.filter_cons, hb, ih]
      · simp [List.orderedInsert, hr, List.filter_cons, hb, ih]

/-- Elements that the relation puts pairwise on a par keep their input order, and
their number, through the insertion sort. -/
theorem filter_insertionSort {α : Type} (r : α → α → Prop) [DecidableRel r] (p : α → Bool)
    (l : List α) (h : ∀ a ∈ l, ∀ b ∈ l, p a = true → p b = true → r a b) :
    (l.insertionSort r).filter p = l.filter p := by
  induction l with
  | nil => rfl
  | cons a t ih =>
    have ht : ∀ x ∈ t, ∀ y ∈ t, p x = true → p y = true → r x y := fun x hx y hy =>
      h x (List.mem_cons_of_mem _ hx) y (List.mem_cons_of_mem _ hy)
    simp only [List.insertionSort]
    by_cases hp : p a = true
    · rw [filter_orderedInsert_of_pos r p a _ hp, ih ht, List.filter_cons, if_pos hp]
      intro b hb hpb
      exact h a (List.mem_cons_self _ _) b
        (List.mem_cons_of_mem _ ((List.mem_insertionSort r).1 hb)) hp hpb
    · rw [filter_orderedInsert_of_neg r p a _ hp, ih ht, List.filter_cons, if_neg hp]

/-- Two mechanics whose rating and experience agree once missing values count as 0
compare as equal. -/
theorem compareMechanics_tie (a b : Mechanic) (hr : a.rating.orZero = b.rating.orZero)
    (he : a.experience.orZero = b.experience.orZero) : compareMechanics a b = 0 := by
  unfold compareMechanics
  split_ifs
  · rw [hr]; exact sub_self _
  · rw [he]; exact sub_self _

/-- Where every candidate has a numeric rating the comparator is consistent, and the
sort keeps ties in input order: for every rating and experience (a missing
experience counting as 0), the candidates with exactly that rating and experience
form the same sequence in the result as in the input, and two qualifying mechanics
with equal rating and equal experience that occur in the input as a before b occur
in the result as a before b. -/
theorem getFilteredMechanics_ties_of_numeric (selectedTask : Task) (mechanics : List Mechanic)
    (_h : ∀ m ∈ mechanics, filterCallback selectedTask m = true → ∃ q, m.rating = .num q) :
    (∀ rating experience : ℚ,
      (getFilteredMechanics selectedTask mechanics).filter
          (fun m => decide (m.rating.orZero = rating ∧ m.experience.orZero = experience)) =
        (mechanics.filter (filterCallback selectedTask)).filter
          (fun m => decide (m.rating.orZero = rating ∧ m.experience.orZero = experience))) ∧
    (∀ a b : Mechanic,
      a.rating.orZero = b.rating.orZero → a.experience.orZero = b.experience.orZero →
      filterCallback selectedTask a = true → filterCallback selectedTask b = true →
      List.Sublist [a, b] mechanics →
        List.Sublist [a, b] (getFilteredMechanics selectedTask mechanics)) := by
  constructor
  · intro rating experience
    unfold getFilteredMechanics sort
    apply filter_insertionSort
    intro a _ b _ ha hb
    simp only [decide_eq_true_eq] at ha hb
    exact le_of_eq (compareMechanics_tie a b (ha.1.trans hb.1.symm) (ha.2.trans hb.2.symm))
  · intro a b hr he fa fb hsub
    unfold getFilteredMechanics sort
    apply List.pair_sublist_insertionSort
    · exact le_of_eq (compareMechanics_tie a b hr he)
    · have := hsub.filter (filterCallback selectedTask)
      simpa [List.filter_cons, fa, fb] using this

/-- C6. The comparator handed to `.sort` is not a consistent comparator once a rating
is missing. Of six available, qualified mechanics m (no rating, experience 0),
z (rating 0, experience 9), x1 and x2 (no rating, experience 1), w1 and w2 (rating
5, experience 0): m compares as equal to z and z as equal to x2, yet m compares as
after x2, while x1 and x2 compare as equal both ways. The last conjunct lists the
comparator's value at the pairs (z, m), (x1, z), (w1, x1), (w1, z), (w1, m), (w2, z),
(w2, m), (w2, w1), (x2, m), (x2, w2). -/
theorem compareMechanics_not_transitive :
    compareMechanics
        ⟨"m", "M", some "available", some ["doorstep-service"], .undefined, .num 0⟩
        ⟨"z", "Z", some "available", some ["doorstep-service"], .num 0, .num 9⟩ = 0 ∧
    compareMechanics
        ⟨"z", "Z", some "available", some ["doorstep-service"], .num 0, .num 9⟩
        ⟨"x2", "X2", some "available", some ["doorstep-service"], .undefined, .num 1⟩ = 0 ∧
    compareMechanics
        ⟨"m", "M", some "available", some ["doorstep-service"], .undefined, .num 0⟩
        ⟨"x2", "X2", some "available", some ["doorstep-service"], .undefined, .num 1⟩ = 1 ∧
    compareMechanics
        ⟨"x1", "X1", some "available", some ["doorstep-service"], .undefined, .num 1⟩
        ⟨"x2", "X2", some "available", some ["doorstep-service"], .undefined, .num 1⟩ = 0 ∧
    compareMechanics
        ⟨"x2", "X2", some "available", some ["doorstep-service"], .undefined, .num 1⟩
        ⟨"x1", "X1", some "available", some ["doorstep-service"], .undefined, .num 1⟩ = 0 ∧
    [compareMechanics
        ⟨"z", "Z", some "available", some ["doorstep-service"], .num 0, .num 9⟩
        ⟨"m", "M", some "available", some ["doorstep-service"], .undefined, .num 0⟩,
      compareMechanics
        ⟨"x1", "X1", some "available", some ["doorstep-service"], .undefined, .num 1⟩
        ⟨"z", "Z", some "available", some ["doorstep-service"], .num 0, .num 9⟩,
      compareMechanics
        ⟨"w1", "W1", some "available", some ["doorstep-service"], .num 5, .num 0⟩
        ⟨"x1", "X1", some "available", some ["doorstep-service"], .undefined, .num 1⟩,
      compareMechanics
        ⟨"w1", "W1", some "available", some ["doorstep-service"], .num 5, .num 0⟩
        ⟨"z", "Z", some "available", some ["doorstep-service"], .num 0, .num 9⟩,
      compareMechanics
        ⟨"w1", "W1", some "available", some ["doorstep-service"], .num 5, .num 0⟩
        ⟨"m", "M", some "available", some ["doorstep-service"], .undefined, .num 0⟩,
      compareMechanics
        ⟨"w2", "W2", some "available", some ["doorstep-service"], .num 5, .num 0⟩
        ⟨"z", "Z", some "available", some ["doorstep-service"], .num 0, .num 9⟩,
      compareMechanics
        ⟨"w2", "W2", some "available", some ["doorstep-service"], .num 5, .num 0⟩
        ⟨"m", "M", some "available", some ["doorstep-service"], .undefined, .num 0⟩,
      compareMechanics
        ⟨"w2", "W2", some "available", some ["doorstep-service"], .num 5, .num 0⟩
        ⟨"w1", "W1", some "available", some ["doorstep-service"], .num 5, .num 0⟩,
      compareMechanics
        ⟨"x2", "X2", some "available", some ["doorstep-service"], .undefined, .num 1⟩
        ⟨"m", "M", some "available", some ["doorstep-service"], .undefined, .num 0⟩,
      compareMechanics
        ⟨"x2", "X2", some "available", some ["doorstep-service"], .undefined, .num 1⟩
        ⟨"w2", "W2", some "available", some ["doorstep-service"], .num 5, .num 0⟩] =
      [0, 0, -5, -5, -5, -5, -5, 0, -1, 5] := by
  refine ⟨?_, ?_, ?_, ?_, ?_, ?_⟩ <;> simp [compareMechanics, JSNum.orZero]

/-! ## Synchronisation controller -/

theorem run_append (s : Dashboard) (es fs : List Effect) :
    s.run (es ++ fs) = (s.run es).run fs := by
  simp [Dashboard.run, List.foldl_append]

theorem run_cons (s : Dashboard) (e : Effect) (es : List Effect) :
    s.run (e :: es) = (s.step e).run es := rfl

/-- A cell no effect of the sequence writes keeps its value. -/
theorem run_frame {β : Type} (g : Dashboard → β) (es : List Effect) (s : Dashboard)
    (h : ∀ e ∈ es, ∀ t : Dashboard, g (t.step e) = g t) : g (s.run es) = g s := by
  induction es generalizing s with
  | nil => rfl
  | cons e t ih =>
    rw [run_cons, ih _ (fun e2 h2 => h e2 (List.mem_cons_of_mem _ h2)),
      h e (List.mem_cons_self _ _)]

/-- A cell holding `v` still holds `v` when every write to it writes `v`. -/
theorem run_keep {β : Type} (g : Dashboard → β) (v : β) (es : List Effect) (s : Dashboard)
    (h : ∀ e ∈ es, (∀ t : Dashboard, g (t.step e) = g t) ∨ (∀ t : Dashboard, g (t.step e) = v))
    (hs : g s = v) : g (s.run es) = v := by
  induction es generalizing s with
  | nil => exact hs
  | cons e t ih =>
    rw [run_cons]
    apply ih _ (fun e2 h2 => h e2 (List.mem_cons_of_mem _ h2))
    rcases h e (List.mem_cons_self _ _) with hk | hw
    · rw [hk, hs]
    · exact hw _

/-- A cell that is written, and only ever with `v`, ends up holding `v`. -/
theorem run_last {β : Type} (g : Dashboard → β) (v : β) (es : List Effect) (s : Dashboard)
    (h : ∀ e ∈ es, (∀ t : Dashboard, g (t.step e) = g t) ∨ (∀ t : Dashboard, g (t.step e) = v))
    (hex : ∃ e ∈ es, ∀ t : Dashboard, g (t.step e) = v) : g (s.run es) = v := by
  induction es generalizing s with
  | nil =>
    obtain ⟨e, he, _⟩ := hex
    cases he
  | cons e t ih =>
    have ht := fun e2 h2 => h e2 (List.mem_cons_of_mem _ h2)
    rw [run_cons]
    obtain ⟨e2, he2, hw⟩ := hex
    rcases List.mem_cons.1 he2 with rfl | hin
    · exact run_keep g v t _ ht (hw _)
    · exact ih _ ht ⟨e2, hin, hw⟩

theorem fetchAppointments_run (o : Except JSError (Response Appointment)) :
    fetchAppointments o =
      ⟨[.request .getAppointments, .suspend] ++
        (match o with
         | .ok _ => [.setAppointments (stored o), .console "Appointments fetched:"]
         | .error _ => [.console "Error fetching appointments:", .setAppointments (stored o)]),
        .ok ()⟩ := by
  unfold fetchAppointments
  cases o <;> rfl

theorem fetchEmergencies_run (o : Except JSError (Response Emergency)) :
    fetchEmergencies o =
      ⟨[.request .getEmergencies, .suspend] ++
        (match o with
         | .ok _ => [.setEmergencies (stored o), .console "Emergencies fetched:"]
         | .error _ => [.console "Error fetching emergencies:", .setEmergencies (stored o)]),
        .ok ()⟩ := by
  unfold fetchEmergencies
  cases o <;> rfl

theorem fetchInquiries_run (o : Except JSError (Response Inquiry)) :
    fetchInquiries o =
      ⟨[.request .getInquiries, .suspend] ++
        (match o with
         | .ok _ => [.setInquiries (stored o), .console "Inquiries fetched:"]
         | .error _ => [.console "Error fetching inquiries:", .setInquiries (stored o)]),
        .ok ()⟩ := by
  unfold fetchInquiries
  cases o <;> rfl

theorem fetchMechanics_run (o : Except JSError (Response Mechanic)) :
    fetchMechanics o =
      ⟨[.request .getMechanics, .suspend] ++
        (match o with
         | .ok _ => [.setMechanics (stored o), .console "Mechanics fetched:"]
         | .error _ => [.console "Error fetching mechanics:", .setMechanics (stored o)]),
        .ok ()⟩ := by
  unfold fetchMechanics
  cases o <;> rfl

theorem firstRejection_ok (tasks : List (Proc Unit)) (h : ∀ t ∈ tasks, t.result = .ok ())
    (order : List Nat) : firstRejection tasks order = .ok () := by
  induction order with
  | nil => rfl
  | cons i rest ih =>
    unfold firstRejection
    split
    · rename_i es e heq
      have := h _ (List.getElem?_mem heq)
      simp at this
    · exact ih

/-- Every effect of the joined calls is an effect of one of the calls. -/
theorem mem_promiseAll (tasks : List (Proc Unit)) (order : List Nat) (e : Effect)
    (h : e ∈ (promiseAll tasks order).effects) : ∃ t ∈ tasks, e ∈ t.effects := by
  unfold promiseAll at h
  simp only [List.mem_append, List.mem_flatten, List.mem_map] at h
  rcases h with ⟨l, ⟨t, ht, rfl⟩, he⟩ | ⟨l, ⟨i, _, rfl⟩, he⟩
  · exact ⟨t, ht, (List.takeWhile_sublist _).subset he⟩
  · split at he
    · rename_i t heq
      exact ⟨t, List.getElem?_mem heq, (List.dropWhile_sublist _).subset he⟩
    · cases he

/-- A call whose index occurs in the completion order gets to run its continuation. -/
theorem promiseAll_resumes (tasks : List (Proc Unit)) (order : List Nat) (i : Nat)
    (t : Proc Unit) (hi : i ∈ order) (ht : tasks[i]? = some t) (e : Effect)
    (he : e ∈ afterSuspend t.effects) : e ∈ (promiseAll tasks order).effects := by
  unfold promiseAll
  simp only [List.mem_append, List.mem_flatten, List.mem_map]
  refine Or.inr ⟨afterSuspend t.effects, ⟨i, hi, ?_⟩, he⟩
  rw [ht]

/-- What the four fetches of one refresh can do: issue a request, suspend, write to
the console, or store their own settled list in their own collection. -/
theorem effects_of_fetches (api : ListOutcomes) (t : Proc Unit)
    (ht : t ∈ [fetchAppointments api.getAppointments, fetchEmergencies api.getEmergencies,
      fetchInquiries api.getInquiries, fetchMechanics api.getMechanics])
    (e : Effect) (he : e ∈ t.effects) :
    (∃ c, e = .request c) ∨ e = .suspend ∨ (∃ m, e = .console m) ∨
      e = .setAppointments (stored api.getAppointments) ∨
      e = .setEmergencies (stored api.getEmergencies) ∨
      e = .setInquiries (stored api.getInquiries) ∨
      e = .setMechanics (stored api.getMechanics) := by
  simp only [List.mem_cons, List.mem_singleton, List.not_mem_nil, or_false] at ht
  rcases ht with rfl | rfl | rfl | rfl
  · rw [fetchAppointments_run] at he
    cases h : api.getAppointments <;> rw [h] at he <;> simp at he <;>
      rcases he with rfl | rfl | rfl | rfl <;> simp
  · rw [fetchEmergencies_run] at he
    cases h : api.getEmergencies <;> rw [h] at he <;> simp at he <;>
      rcases he with rfl | rfl | rfl | rfl <;> simp
  · rw [fetchInquiries_run] at he
    cases h : api.getInquiries <;> rw [h] at he <;> simp at he <;>
      rcases he with rfl | rfl | rfl | rfl <;> simp
  · rw [fetchMechanics_run] at he
    cases h : api.getMechanics <;> rw [h] at he <;> simp at he <;>
      rcases he with rfl | rfl | rfl | rfl <;> simp

theorem promiseAll_fetches_ok (api : ListOutcomes) (order : List Nat) :
    (promiseAll [fetchAppointments api.getAppointments, fetchEmergencies api.getEmergencies,
      fetchInquiries api.getInquiries, fetchMechanics api.getMechanics] order).result =
      .ok () := by
  unfold promiseAll
  apply firstRejection_ok
  intro t ht
  simp only [List.mem_cons, List.mem_singleton, List.not_mem_nil, or_false] at ht
  rcases ht with rfl | rfl | rfl | rfl
  · rw [fetchAppointments_run]
  · rw [fetchEmergencies_run]
  · rw [fetchInquiries_run]
  · rw [fetchMechanics_run]

/-- The trace of one refresh: the loader switched on (when asked), the error
cleared, the joined fetches, the loader switched off (when asked); it never throws. -/
theorem fetchAllData_run (api : ListOutcomes) (order : List Nat) (showLoader : Bool) :
    fetchAllData api order showLoader =
      ⟨(if showLoader then [.setLoading true] else []) ++ [.setError none] ++
        (promiseAll [fetchAppointments api.getAppointments,
          fetchEmergencies api.getEmergencies, fetchInquiries api.getInquiries,
          fetchMechanics api.getMechanics] order).effects ++
        (if showLoader then [.setLoading false] else []), .ok ()⟩ := by
  have h := promiseAll_fetches_ok api order
  unfold fetchAllData
  generalize promiseAll [fetchAppointments api.getAppointments,
    fetchEmergencies api.getEmergencies, fetchInquiries api.getInquiries,
    fetchMechanics api.getMechanics] order = body at h ⊢
  obtain ⟨es, res⟩ := body
  simp only at h
  subst h
  cases showLoader <;>
    simp [Bind.bind, Proc.bind, emit, tryCatch, tryCatchThe, MonadExcept.tryCatch,
      Proc.tryCatch, tryFinally, MonadFinally.tryFinally', Proc.tryFinally, Functor.map,
      Pure.pure, Proc.pure]

/-- Every effect of a refresh, classified. -/
theorem effects_of_fetchAllData (api : ListOutcomes) (order : List Nat) (showLoader : Bool)
    (e : Effect) (he : e ∈ (fetchAllData api order showLoader).effects) :
    (showLoader = true ∧ ∃ v, e = .setLoading v) ∨ e = .setError none ∨
      (∃ c, e = .request c) ∨ e = .suspend ∨ (∃ m, e = .console m) ∨
      e = .setAppointments (stored api.getAppointments) ∨
      e = .setEmergencies (stored api.getEmergencies) ∨
      e = .setInquiries (stored api.getInquiries) ∨
      e = .setMechanics (stored api.getMechanics) := by
  rw [fetchAllData_run] at he
  simp only [List.mem_append, List.mem_singleton] at he
  rcases he with ((h | h) | h) | h
  · cases showLoader
    · simp at h
    · simp at h; exact Or.inl ⟨rfl, _, h⟩
  · exact Or.inr (Or.inl h)
  · obtain ⟨t, ht, het⟩ := mem_promiseAll _ _ _ h
    exact Or.inr (Or.inr (effects_of_fetches api t ht e het))
  · cases showLoader
    · simp at h
    · simp at h; exact Or.inl ⟨rfl, _, h⟩

/-- During one refresh every write to a collection writes that collection's own
settled list; nothing else touches the collections. -/
theorem fetchAllData_writes (api : ListOutcomes) (order : List Nat) (showLoader : Bool)
    (e : Effect) (he : e ∈ (fetchAllData api order showLoader).effects) :
    ((∀ t : Dashboard, (t.step e).appointments = t.appointments) ∨
      (∀ t : Dashboard, (t.step e).appointments = stored api.getAppointments)) ∧
    ((∀ t : Dashboard, (t.step e).emergencies = t.emergencies) ∨
      (∀ t : Dashboard, (t.step e).emergencies = stored api.getEmergencies)) ∧
    ((∀ t : Dashboard, (t.step e).inquiries = t.inquiries) ∨
      (∀ t : Dashboard, (t.step e).inquiries = stored api.getInquiries)) ∧
    ((∀ t : Dashboard, (t.step e).mechanics = t.mechanics) ∨
      (∀ t : Dashboard, (t.step e).mechanics = stored api.getMechanics)) := by
  rcases effects_of_fetchAllData api order showLoader e he with
    ⟨_, v, rfl⟩ | rfl | ⟨c, rfl⟩ | rfl | ⟨m, rfl⟩ | rfl | rfl | rfl | rfl <;>
  refine ⟨?_, ?_, ?_, ?_⟩ <;>
  first
    | exact Or.inl (fun _ => rfl)
    | exact Or.inr (fun _ => rfl)

/-- A fetch whose index is in the completion order performs its write. -/
theorem fetchAllData_resumes (api : ListOutcomes) (order : List Nat) (showLoader : Bool)
    (i : Nat) (t : Proc Unit) (hi : i ∈ order)
    (ht : [fetchAppointments api.getAppointments, fetchEmergencies api.getEmergencies,
      fetchInquiries api.getInquiries, fetchMechanics api.getMechanics][i]? = some t)
    (e : Effect) (he : e ∈ afterSuspend t.effects) :
    e ∈ (fetchAllData api order showLoader).effects := by
  rw [fetchAllData_run]
  simp only [List.mem_append]
  exact Or.inl (Or.inr (promiseAll_resumes _ order i t hi ht e he))

theorem fetchAllData_appointments (api : ListOutcomes) (order : List Nat) (showLoader : Bool)
    (s : Dashboard) (h : 0 ∈ order) :
    (s.run (fetchAllData api order showLoader).effects).appointments =
      stored api.getAppointments := by
  apply run_last (fun d => d.appointments)
  · exact fun e he => (fetchAllData_writes api order showLoader e he).1
  · refine ⟨.setAppointments (stored api.getAppointments), ?_, fun _ => rfl⟩
    apply fetchAllData_resumes api order showLoader 0 _ h rfl
    rw [fetchAppointments_run]
    cases api.getAppointments <;> simp [afterSuspend]

theorem fetchAllData_emergencies (api : ListOutcomes) (order : List Nat) (showLoader : Bool)
    (s : Dashboard) (h : 1 ∈ order) :
    (s.run (fetchAllData api order showLoader).effects).emergencies =
      stored api.getEmergencies := by
  apply run_last (fun d => d.emergencies)
  · exact fun e he => (fetchAllData_writes api order showLoader e he).2.1
  · refine ⟨.setEmergencies (stored api.getEmergencies), ?_, fun _ => rfl⟩
    apply fetchAllData_resumes api order showLoader 1 _ h rfl
    rw [fetchEmergencies_run]
    cases api.getEmergencies <;> simp [afterSuspend]

theorem fetchAllData_inquiries (api : ListOutcomes) (order : List Nat) (showLoader : Bool)
    (s : Dashboard) (h : 2 ∈ order) :
    (s.run (fetchAllData api order showLoader).effects).inquiries =
      stored api.getInquiries := by
  apply run_last (fun d => d.inquiries)
  · exact fun e he => (fetchAllData_writes api order showLoader e he).2.2.1
  · refine ⟨.setInquiries (stored api.getInquiries), ?_, fun _ => rfl⟩
    apply fetchAllData_resumes api order showLoader 2 _ h rfl
    rw [fetchInquiries_run]
    cases api.getInquiries <;> simp [afterSuspend]

theorem fetchAllData_mechanics (api : ListOutcomes) (order : List Nat) (showLoader : Bool)
    (s : Dashboard) (h : 3 ∈ order) :
    (s.run (fetchAllData api order showLoader).effects).mechanics =
      stored api.getMechanics := by
  apply run_last (fun d => d.mechanics)
  · exact fun e he => (fetchAllData_writes api order showLoader e he).2.2.2
  · refine ⟨.setMechanics (stored api.getMechanics), ?_, fun _ => rfl⟩
    apply fetchAllData_resumes api order showLoader 3 _ h rfl
    rw [fetchMechanics_run]
    cases api.getMechanics <;> simp [afterSuspend]

theorem fetchAppointments_stores (o : Except JSError (Response Appointment)) (s : Dashboard) :
    (s.run (fetchAppointments o).effects).appointments = stored o := by
  rw [fetchAppointments_run]
  cases o <;> rfl

theorem fetchEmergencies_stores (o : Except JSError (Response Emergency)) (s : Dashboard) :
    (s.run (fetchEmergencies o).effects).emergencies = stored o := by
  rw [fetchEmergencies_run]
  cases o <;> rfl

theorem fetchInquiries_stores (o : Except JSError (Response Inquiry)) (s : Dashboard) :
    (s.run (fetchInquiries o).effects).inquiries = stored o := by
  rw [fetchInquiries_run]
  cases o <;> rfl

theorem fetchMechanics_stores (o : Except JSError (Response Mechanic)) (s : Dashboard) :
    (s.run (fetchMechanics o).effects).mechanics = stored o := by
  rw [fetchMechanics_run]
  cases o <;> rfl

/-- C7. Failure is isolated per resource. Whatever way the four list requests
settle and in whatever order they finish, after one refresh each collection is what
its own fetch, run alone from any state, would have stored, and it is the fetched
list whenever its own request resolved with one. No collection depends on another
resource's outcome, on the completion order, or on the state before. -/
theorem fetchAllData_isolates_failures (api : ListOutcomes) (order : List Nat)
    (showLoader : Bool) (s other : Dashboard) (h : order.Perm [0, 1, 2, 3]) :
    ((s.run (fetchAllData api order showLoader).effects).appointments =
        (other.run (fetchAppointments api.getAppointments).effects).appointments ∧
      (s.run (fetchAllData api order showLoader).effects).emergencies =
        (other.run (fetchEmergencies api.getEmergencies).effects).emergencies ∧
      (s.run (fetchAllData api order showLoader).effects).inquiries =
        (other.run (fetchInquiries api.getInquiries).effects).inquiries ∧
      (s.run (fetchAllData api order showLoader).effects).mechanics =
        (other.run (fetchMechanics api.getMechanics).effects).mechanics) ∧
    ((∀ l, api.getAppointments = .ok ⟨some l⟩ →
        (s.run (fetchAllData api order showLoader).effects).appointments = l) ∧
      (∀ l, api.getEmergencies = .ok ⟨some l⟩ →
        (s.run (fetchAllData api order showLoader).effects).emergencies = l) ∧
      (∀ l, api.getInquiries = .ok ⟨some l⟩ →
        (s.run (fetchAllData api order showLoader).effects).inquiries = l) ∧
      (∀ l, api.getMechanics = .ok ⟨some l⟩ →
        (s.run (fetchAllData api order showLoader).effects).mechanics = l)) := by
  have h0 : 0 ∈ order := h.mem_iff.2 (by simp)
  have h1 : 1 ∈ order := h.mem_iff.2 (by simp)
  have h2 : 2 ∈ order := h.mem_iff.2 (by simp)
  have h3 : 3 ∈ order := h.mem_iff.2 (by simp)
  have ha := fetchAllData_appointments api order showLoader s h0
  have he := fetchAllData_emergencies api order showLoader s h1
  have hi := fetchAllData_inquiries api order showLoader s h2
  have hm := fetchAllData_mechanics api order showLoader s h3
  refine ⟨⟨?_, ?_, ?_, ?_⟩, ?_, ?_, ?_, ?_⟩
  · rw [ha, fetchAppointments_stores]
  · rw [he, fetchEmergencies_stores]
  · rw [hi, fetchInquiries_stores]
  · rw [hm, fetchMechanics_stores]
  · intro l hl; rw [ha, hl]; rfl
  · intro l hl; rw [he, hl]; rfl
  · intro l hl; rw [hi, hl]; rfl
  · intro l hl; rw [hm, hl]; rfl

/-- The emergencies request is rejected and finishes last, inquiries come back
without data: appointments and mechanics still hold their fetched lists. -/
theorem fetchAllData_isolates_failures_witness :
    (((({ mechanics := [], appointments := [⟨"old", none, none⟩] } : Dashboard).run
        (fetchAllData
          ⟨.ok ⟨some [⟨"a1", some "pending", none⟩]⟩, .error ⟨"Network Error", none⟩,
            .ok ⟨none⟩,
            .ok ⟨some [⟨"m1", "Asha", some "available", none, .undefined, .undefined⟩]⟩⟩
          [2, 0, 3, 1] false).effects).appointments = [⟨"a1", some "pending", none⟩]) ∧
      (({ mechanics := [], appointments := [⟨"old", none, none⟩] } : Dashboard).run
        (fetchAllData
          ⟨.ok ⟨some [⟨"a1", some "pending", none⟩]⟩, .error ⟨"Network Error", none⟩,
            .ok ⟨none⟩,
            .ok ⟨some [⟨"m1", "Asha", some "available", none, .undefined, .undefined⟩]⟩⟩
          [2, 0, 3, 1] false).effects).mechanics =
        [⟨"m1", "Asha", some "available", none, .undefined, .undefined⟩]) :=
  ⟨(fetchAllData_isolates_failures _ [2, 0, 3, 1] false _ {} (by decide)).2.1 _ rfl,
    (fetchAllData_isolates_failures _ [2, 0, 3, 1] false _ {} (by decide)).2.2.2.2 _ rfl⟩

/-- C8. Each list fetch replaces its collection wholesale: with the fetched list
when the request resolves with data, with the empty list when the data is missing
or the request is rejected. The previous content plays no part. -/
theorem fetch_replaces_collection (s : Dashboard) :
    (∀ o : Except JSError (Response Appointment),
      (s.run (fetchAppointments o).effects).appointments =
        match o with
        | .ok ⟨some l⟩ => l
        | .ok ⟨none⟩ => []
        | .error _ => []) ∧
    (∀ o : Except JSError (Response Emergency),
      (s.run (fetchEmergencies o).effects).emergencies =
        match o with
        | .ok ⟨some l⟩ => l
        | .ok ⟨none⟩ => []
        | .error _ => []) ∧
    (∀ o : Except JSError (Response Inquiry),
      (s.run (fetchInquiries o).effects).inquiries =
        match o with
        | .ok ⟨some l⟩ => l
        | .ok ⟨none⟩ => []
        | .error _ => []) ∧
    (∀ o : Except JSError (Response Mechanic),
      (s.run (fetchMechanics o).effects).mechanics =
        match o with
        | .ok ⟨some l⟩ => l
        | .ok ⟨none⟩ => []
        | .error _ => []) := by
  refine ⟨?_, ?_, ?_, ?_⟩
  · intro o; rw [fetchAppointments_run]; rcases o with _ | ⟨_ | _⟩ <;> rfl
  · intro o; rw [fetchEmergencies_run]; rcases o with _ | ⟨_ | _⟩ <;> rfl
  · intro o; rw [fetchInquiries_run]; rcases o with _ | ⟨_ | _⟩ <;> rfl
  · intro o; rw [fetchMechanics_run]; rcases o with _ | ⟨_ | _⟩ <;> rfl

/-- C9. Whatever way the four list requests settle, all four rejected included, a
refresh ends normally, never through its `catch` branch: the only value it gives
the error flag is `null`, the message "Error loading dashboard data. Please
refresh the page." is never set, and the error flag is `null` when it ends. -/
theorem fetchAllData_never_throws (api : ListOutcomes) (order : List Nat) (showLoader : Bool)
    (s : Dashboard) :
    (fetchAllData api order showLoader).result = .ok () ∧
    (∀ v, Effect.setError v ∈ (fetchAllData api order showLoader).effects ↔ v = none) ∧
    Effect.setError (some "Error loading dashboard data. Please refresh the page.") ∉
      (fetchAllData api order showLoader).effects ∧
    (s.run (fetchAllData api order showLoader).effects).error = none := by
  have hv : ∀ v, Effect.setError v ∈ (fetchAllData api order showLoader).effects → v = none := by
    intro v hin
    rcases effects_of_fetchAllData api order showLoader _ hin with
      ⟨_, w, h⟩ | h | ⟨c, h⟩ | h | ⟨m, h⟩ | h | h | h | h <;> simp_all
  have hin : Effect.setError none ∈ (fetchAllData api order showLoader).effects := by
    rw [fetchAllData_run]
    simp
  refine ⟨?_, ?_, ?_, ?_⟩
  · rw [fetchAllData_run]
  · exact fun v => ⟨hv v, fun h => h ▸ hin⟩
  · intro h
    cases hv _ h
  · apply run_last (fun d => d.error)
    · intro e he
      rcases effects_of_fetchAllData api order showLoader e he with
        ⟨_, v, rfl⟩ | rfl | ⟨c, rfl⟩ | rfl | ⟨m, rfl⟩ | rfl | rfl | rfl | rfl <;>
      first
        | exact Or.inl (fun _ => rfl)
        | exact Or.inr (fun _ => rfl)
    · exact ⟨_, hin, fun _ => rfl⟩

/-- C10. A silent refresh never writes the loading flag: no `setLoading` occurs in
its trace, so the flag has its initial value after every step and at the end. A
refresh with the loader writes `true` to the flag as its very first step, before
any request, does not write it again until its last step, which writes `false`;
the flag is `false` at the end however the requests settle. -/
theorem fetchAllData_loading (api : ListOutcomes) (order : List Nat) (s : Dashboard) :
    ((∀ v, Effect.setLoading v ∉ (fetchAllData api order false).effects) ∧
      (∀ n, (s.run ((fetchAllData api order false).effects.take n)).loading = s.loading) ∧
      (s.run (fetchAllData api order false).effects).loading = s.loading) ∧
    ((∃ middle, (fetchAllData api order true).effects =
          Effect.setLoading true :: (middle ++ [Effect.setLoading false]) ∧
        (∀ v, Effect.setLoading v ∉ middle) ∧
        (∀ c, Effect.request c ∈ (fetchAllData api order true).effects →
          Effect.request c ∈ middle)) ∧
      (s.run (fetchAllData api order true).effects).loading = false) := by
  have hno : ∀ e ∈ (fetchAllData api order false).effects,
      ∀ t : Dashboard, (t.step e).loading = t.loading := by
    intro e he
    rcases effects_of_fetchAllData api order false e he with
      ⟨hf, _⟩ | rfl | ⟨c, rfl⟩ | rfl | ⟨m, rfl⟩ | rfl | rfl | rfl | rfl
    · cases hf
    all_goals exact fun _ => rfl
  have hmid : ∀ v, Effect.setLoading v ∉ Effect.setError none ::
      (promiseAll [fetchAppointments api.getAppointments,
        fetchEmergencies api.getEmergencies, fetchInquiries api.getInquiries,
        fetchMechanics api.getMechanics] order).effects := by
    intro v hin
    rcases List.mem_cons.1 hin with h | h
    · cases h
    · obtain ⟨t, ht, het⟩ := mem_promiseAll _ _ _ h
      rcases effects_of_fetches api t ht _ het with
        ⟨c, h⟩ | h | ⟨m, h⟩ | h | h | h | h <;> cases h
  refine ⟨⟨?_, ?_, ?_⟩, ⟨_, ?_, hmid, ?_⟩, ?_⟩
  · intro v hin
    have := hno _ hin ⟨[], [], [], [], "", !v, none, false, false, none,
      ⟨"", "", "", "", .array [], 0, ""⟩⟩
    cases v <;> simp [Dashboard.step] at this
  · intro n
    exact run_frame (fun d => d.loading) _ s
      (fun e he => hno e ((List.take_sublist _ _).subset he))
  · exact run_frame (fun d => d.loading) _ s hno
  · rw [fetchAllData_run]
    simp
  · intro c hin
    rw [fetchAllData_run] at hin
    simpa using hin
  · rw [fetchAllData_run]
    simp only [if_true, List.append_assoc]
    rw [run_append, run_append, run_append]
    rfl

/-! ## Polling scheduler -/

theorem startPolling_of_truthy (h : Host) (ht : truthy h.intervalRef = true) :
    startPolling h = h := by
  unfold startPolling
  simp [ht]

theorem startPolling_of_falsy (h : Host) (ht : truthy h.intervalRef = false) :
    startPolling h =
      { h with
        intervalRef := some (h.lastTimerId + 1)
        intervals := h.intervals ++
          [⟨h.lastTimerId + 1,
            [.consoleLog "Auto-updating dashboard data...", .fetchAllData false], 30000⟩]
        lastTimerId := h.lastTimerId + 1 } := by
  unfold startPolling
  simp [ht, setInterval, POLL_INTERVAL]

theorem truthy_startPolling (h : Host) : truthy (startPolling h).intervalRef = true := by
  by_cases ht : truthy h.intervalRef = true
  · rw [startPolling_of_truthy h ht]; exact ht
  · rw [startPolling_of_falsy h (by simpa using ht)]
    simp [truthy]

theorem stopPolling_of_falsy (h : Host) (ht : truthy h.intervalRef = false) :
    stopPolling h = h := by
  unfold stopPolling
  cases hr : h.intervalRef with
  | none => rfl
  | some id =>
    rw [hr] at ht
    simp [truthy] at ht
    simp [ht]

theorem falsy_stopPolling (h : Host) : truthy (stopPolling h).intervalRef = false := by
  unfold stopPolling
  cases hr : h.intervalRef with
  | none => simp [hr, truthy]
  | some id =>
    by_cases hid : id = 0
    · simp [hid, hr, truthy]
    · simp [hid, truthy, clearInterval]

theorem coherent_startPolling (h : Host) (hc : Coherent h) : Coherent (startPolling h) := by
  by_cases ht : truthy h.intervalRef = true
  · rw [startPolling_of_truthy h ht]; exact hc
  · have hf : truthy h.intervalRef = false := by simpa using ht
    rw [startPolling_of_falsy h hf]
    unfold Coherent at hc ⊢
    cases hr : h.intervalRef with
    | none =>
      rw [hr] at hc
      simp [hc, POLL_INTERVAL]
    | some id =>
      rw [hr] at hc hf
      simp [truthy] at hf
      exact absurd hf hc.1

theorem coherent_stopPolling (h : Host) (hc : Coherent h) :
    Coherent (stopPolling h) ∧ (stopPolling h).intervalRef = none ∧
      (stopPolling h).intervals = [] := by
  unfold Coherent at hc
  unfold stopPolling Coherent
  cases hr : h.intervalRef with
  | none =>
    rw [hr] at hc
    simp [hr, hc]
  | some id =>
    rw [hr] at hc
    simp [hc.1, hc.2, clearInterval]

theorem coherent_running_intervals (h : Host) (hc : Coherent h)
    (ht : truthy h.intervalRef = true) :
    ∃ id, id ≠ 0 ∧ h.intervalRef = some id ∧
      h.intervals =
        [⟨id, [.consoleLog "Auto-updating dashboard data...", .fetchAllData false], 30000⟩] := by
  unfold Coherent at hc
  cases hr : h.intervalRef with
  | none => rw [hr] at ht; simp [truthy] at ht
  | some id =>
    rw [hr] at hc
    exact ⟨id, hc.1, rfl, hc.2⟩

/-- C11. Calling `startPolling` twice gives the same scheduler as calling it once.
On a running scheduler the call changes nothing: no timer is registered and the
stored handle stays. From either state of the scheduler, after two calls exactly
one timer is active and the scheduler is running. -/
theorem startPolling_idempotent (h : Host) :
    startPolling (startPolling h) = startPolling h ∧
    (truthy h.intervalRef = true →
      startPolling h = h ∧ (startPolling h).intervals = h.intervals ∧
        (startPolling h).intervalRef = h.intervalRef) ∧
    (Coherent h →
      (startPolling (startPolling h)).intervals.length = 1 ∧
        truthy (startPolling (startPolling h)).intervalRef = true ∧
        Coherent (startPolling (startPolling h))) := by
  have h2 : startPolling (startPolling h) = startPolling h :=
    startPolling_of_truthy _ (truthy_startPolling h)
  refine ⟨h2, ?_, ?_⟩
  · intro ht
    rw [startPolling_of_truthy h ht]
    exact ⟨rfl, rfl, rfl⟩
  · intro hc
    rw [h2]
    have hc2 := coherent_startPolling h hc
    obtain ⟨id, _, _, hi⟩ := coherent_running_intervals _ hc2 (truthy_startPolling h)
    exact ⟨by rw [hi]; rfl, truthy_startPolling h, hc2⟩

/-- From a stopped scheduler two calls leave the single timer with handle 8; from
the running scheduler that results, a further call changes nothing. -/
theorem startPolling_idempotent_witness :
    (startPolling (startPolling { lastTimerId := 7 })).intervals.length = 1 ∧
      startPolling (startPolling { lastTimerId := 7 }) = startPolling { lastTimerId := 7 } :=
  ⟨((startPolling_idempotent { lastTimerId := 7 }).2.2 (by decide)).1,
    (startPolling_idempotent { lastTimerId := 7 }).1⟩

/-- C12. On a stopped scheduler `startPolling` registers exactly one more timer,
with period 30000 ms and a callback that logs and calls `fetchAllData(false)`,
stores its handle and leaves the scheduler running. The scheduler is stopped
after every `stopPolling`, so this covers stop-then-start; from either state of
the scheduler, stop-then-start leaves exactly one timer, the poll timer with period
30000 ms, and when the scheduler was running the period is what it was before. -/
theorem startPolling_registers_poll_timer :
    (∀ h : Host, truthy h.intervalRef = false →
      (startPolling h).intervals = h.intervals ++
          [⟨h.lastTimerId + 1,
            [.consoleLog "Auto-updating dashboard data...", .fetchAllData false], 30000⟩] ∧
        (startPolling h).intervalRef = some (h.lastTimerId + 1) ∧
        truthy (startPolling h).intervalRef = true) ∧
    (∀ h : Host, truthy (stopPolling h).intervalRef = false) ∧
    (∀ h : Host, Coherent h →
      (startPolling (stopPolling h)).intervals =
          [⟨h.lastTimerId + 1,
            [.consoleLog "Auto-updating dashboard data...", .fetchAllData false], 30000⟩] ∧
        (startPolling (stopPolling h)).intervalRef = some (h.lastTimerId + 1) ∧
        Coherent (startPolling (stopPolling h))) ∧
    (∀ h : Host, Coherent h → truthy h.intervalRef = true →
      (startPolling (stopPolling h)).intervals.map (fun t => t.delay) =
        h.intervals.map (fun t => t.delay)) := by
  have key : ∀ h : Host, Coherent h →
      (startPolling (stopPolling h)).intervals =
          [⟨h.lastTimerId + 1,
            [.consoleLog "Auto-updating dashboard data...", .fetchAllData false], 30000⟩] ∧
        (startPolling (stopPolling h)).intervalRef = some (h.lastTimerId + 1) := by
    intro h hc
    obtain ⟨_, _, hi⟩ := coherent_stopPolling h hc
    have hl : (stopPolling h).lastTimerId = h.lastTimerId := by
      unfold stopPolling
      cases h.intervalRef with
      | none => rfl
      | some id => by_cases hid : id = 0 <;> simp [hid, clearInterval]
    rw [startPolling_of_falsy _ (falsy_stopPolling h)]
    simp [hi, hl]
  refine ⟨?_, falsy_stopPolling, ?_, ?_⟩
  · intro h ht
    rw [startPolling_of_falsy h ht]
    simp [truthy]
  · intro h hc
    exact ⟨(key h hc).1, (key h hc).2,
      coherent_startPolling _ (coherent_stopPolling h hc).1⟩
  · intro h hc ht
    obtain ⟨id, _, _, hi⟩ := coherent_running_intervals h hc ht
    rw [(key h hc).1, hi]
    rfl

/-- A running scheduler with timer 3 is stopped and started again: the new timer has
handle 4 and the same period, 30000 ms. -/
theorem startPolling_registers_poll_timer_witness :
    (startPolling (stopPolling (startPolling { lastTimerId := 2 }))).intervals.map
        (fun t => t.delay) = [30000] ∧
      (startPolling (stopPolling (startPolling { lastTimerId := 2 }))).intervalRef = some 4 :=
  ⟨(startPolling_registers_poll_timer.2.2.2 (startPolling { lastTimerId := 2 })
      (by decide) (by decide)).trans (by decide),
    (startPolling_registers_poll_timer.2.2.1 (startPolling { lastTimerId := 2 })
      (by decide)).2.1⟩

/-- C13. On a running scheduler `stopPolling` clears the timer whose handle is
stored and sets the handle to `null`, which leaves the scheduler stopped with no
timer active; on a stopped scheduler it changes nothing; calling it twice is the
same as calling it once. -/
theorem stopPolling_cancels (h : Host) :
    (truthy h.intervalRef = true →
      (stopPolling h).intervalRef = none ∧
        (∀ id, h.intervalRef = some id → ∀ t ∈ (stopPolling h).intervals, t.id ≠ id) ∧
        (Coherent h → (stopPolling h).intervals = [])) ∧
    (truthy h.intervalRef = false → stopPolling h = h) ∧
    stopPolling (stopPolling h) = stopPolling h := by
  refine ⟨?_, stopPolling_of_falsy h, stopPolling_of_falsy _ (falsy_stopPolling h)⟩
  intro ht
  refine ⟨?_, ?_, fun hc => (coherent_stopPolling h hc).2.2⟩
  · unfold stopPolling
    cases hr : h.intervalRef with
    | none => rw [hr] at ht; simp [truthy] at ht
    | some id =>
      rw [hr] at ht
      simp [truthy] at ht
      simp [ht]
  · intro id hid t hin
    rw [hid] at ht
    simp [truthy] at ht
    unfold stopPolling at hin
    rw [hid] at hin
    simp [ht, clearInterval] at hin
    exact hin.2

/-- The running scheduler with timer 6 is stopped: handle `null`, no timer left. -/
theorem stopPolling_cancels_witness :
    (stopPolling (startPolling { lastTimerId := 5 })).intervalRef = none ∧
      (stopPolling (startPolling { lastTimerId := 5 })).intervals = [] :=
  ⟨((stopPolling_cancels (startPolling { lastTimerId := 5 })).1 (by decide)).1,
    ((stopPolling_cancels (startPolling { lastTimerId := 5 })).1 (by decide)).2.2 (by decide)⟩

theorem startPolling_frame (h : Host) :
    (startPolling h).invoked = h.invoked ∧
      (startPolling h).visibilityListeners = h.visibilityListeners := by
  by_cases ht : truthy h.intervalRef = true
  · rw [startPolling_of_truthy h ht]; exact ⟨rfl, rfl⟩
  · rw [startPolling_of_falsy h (by simpa using ht)]; exact ⟨rfl, rfl⟩

theorem stopPolling_frame (h : Host) :
    (stopPolling h).invoked = h.invoked ∧
      (stopPolling h).visibilityListeners = h.visibilityListeners := by
  unfold stopPolling
  cases h.intervalRef with
  | none => exact ⟨rfl, rfl⟩
  | some id => by_cases hid : id = 0 <;> simp [hid, clearInterval]

theorem fireInterval_of_no_intervals (h : Host) (hi : h.intervals = []) (id : Nat) :
    fireInterval id h = h := by
  unfold fireInterval
  rw [hi]
  rfl

theorem handleVisibilityChange_visible (h : Host) :
    handleVisibilityChange "visible" h =
      startPolling { h with
        invoked := h.invoked ++
          [.consoleLog "Tab visible: refreshing data", .fetchAllData false] } := by
  unfold handleVisibilityChange
  simp

theorem handleVisibilityChange_hidden (h : Host) (visibilityState : String)
    (hv : visibilityState ≠ "visible") :
    handleVisibilityChange visibilityState h =
      stopPolling { h with
        invoked := h.invoked ++ [.consoleLog "Tab hidden: stopping polling"] } := by
  unfold handleVisibilityChange
  simp [hv]

theorem coherent_handleVisibilityChange (h : Host) (visibilityState : String)
    (hc : Coherent h) :
    Coherent (handleVisibilityChange visibilityState h) ∧
      (handleVisibilityChange visibilityState h).visibilityListeners =
        h.visibilityListeners := by
  by_cases hv : visibilityState = "visible"
  · subst hv
    rw [handleVisibilityChange_visible]
    exact ⟨coherent_startPolling _ hc, (startPolling_frame _).2⟩
  · rw [handleVisibilityChange_hidden h _ hv]
    exact ⟨(coherent_stopPolling { h with
        invoked := h.invoked ++ [.consoleLog "Tab hidden: stopping polling"] } hc).1,
      (stopPolling_frame _).2⟩

/-- C14. On either state of the scheduler: when the page becomes visible the
handler calls `fetchAllData(false)` exactly once, at once, and leaves the scheduler
running with exactly one timer; for any other visibility state it calls no
`fetchAllData`, leaves the scheduler stopped with no timer, so that no timer
firing does anything until a later start. With the one listener of a mounted
component, a visibility event runs the handler once. -/
theorem handleVisibilityChange_effect (h : Host) (visibilityState : String)
    (hc : Coherent h) :
    (visibilityState = "visible" →
      (handleVisibilityChange visibilityState h).invoked =
          h.invoked ++ [.consoleLog "Tab visible: refreshing data", .fetchAllData false] ∧
        truthy (handleVisibilityChange visibilityState h).intervalRef = true ∧
        (handleVisibilityChange visibilityState h).intervals.length = 1 ∧
        Coherent (handleVisibilityChange visibilityState h)) ∧
    (visibilityState ≠ "visible" →
      (handleVisibilityChange visibilityState h).invoked =
          h.invoked ++ [.consoleLog "Tab hidden: stopping polling"] ∧
        (handleVisibilityChange visibilityState h).intervalRef = none ∧
        (handleVisibilityChange visibilityState h).intervals = [] ∧
        (∀ id, fireInterval id (handleVisibilityChange visibilityState h) =
          handleVisibilityChange visibilityState h)) ∧
    (h.visibilityListeners = 1 →
      dispatchVisibilityChange visibilityState h =
        handleVisibilityChange visibilityState h) := by
  refine ⟨?_, ?_, ?_⟩
  · intro hv
    subst hv
    have hco := (coherent_handleVisibilityChange h "visible" hc).1
    rw [handleVisibilityChange_visible] at hco ⊢
    obtain ⟨id, _, _, hi⟩ := coherent_running_intervals _ hco (truthy_startPolling _)
    exact ⟨(startPolling_frame _).1, truthy_startPolling _, by rw [hi]; rfl, hco⟩
  · intro hv
    rw [handleVisibilityChange_hidden h _ hv]
    have hs := coherent_stopPolling { h with
      invoked := h.invoked ++ [.consoleLog "Tab hidden: stopping polling"] } hc
    exact ⟨(stopPolling_frame _).1, hs.2.1, hs.2.2,
      fun id => fireInterval_of_no_intervals _ hs.2.2 id⟩
  · intro hl
    unfold dispatchVisibilityChange
    rw [hl]
    rfl

/-- A stopped scheduler sees the page become visible: one `fetchAllData(false)`,
one timer. -/
theorem handleVisibilityChange_effect_witness :
    (handleVisibilityChange "visible" { lastTimerId := 3 }).invoked =
        [.consoleLog "Tab visible: refreshing data", .fetchAllData false] ∧
      (handleVisibilityChange "visible" { lastTimerId := 3 }).intervals.length = 1 :=
  ⟨((handleVisibilityChange_effect { lastTimerId := 3 } "visible" (by decide)).1 rfl).1,
    ((handleVisibilityChange_effect { lastTimerId := 3 } "visible" (by decide)).1 rfl).2.2.1⟩

/-- Every event keeps the scheduler in one of its two states and adds no listener. -/
theorem coherent_step (h : Host) (e : Event) (hc : Coherent h)
    (hl : h.visibilityListeners ≤ 1) :
    Coherent (h.step e) ∧ (h.step e).visibilityListeners ≤ 1 := by
  cases e with
  | startPolling =>
    show Coherent (startPolling h) ∧ (startPolling h).visibilityListeners ≤ 1
    exact ⟨coherent_startPolling h hc, by rw [(startPolling_frame h).2]; exact hl⟩
  | stopPolling =>
    show Coherent (stopPolling h) ∧ (stopPolling h).visibilityListeners ≤ 1
    exact ⟨(coherent_stopPolling h hc).1, by rw [(stopPolling_frame h).2]; exact hl⟩
  | visibilityChange visibilityState =>
    show Coherent (dispatchVisibilityChange visibilityState h) ∧
      (dispatchVisibilityChange visibilityState h).visibilityListeners ≤ 1
    unfold dispatchVisibilityChange
    rcases Nat.le_one_iff_eq_zero_or_eq_one.1 hl with h0 | h1
    · rw [h0]; exact ⟨hc, hl⟩
    · rw [h1]
      have := coherent_handleVisibilityChange h visibilityState hc
      exact ⟨this.1, by show (handleVisibilityChange visibilityState h).visibilityListeners ≤ 1
                        rw [this.2]; exact hl⟩
  | tick id =>
    show Coherent (fireInterval id h) ∧ (fireInterval id h).visibilityListeners ≤ 1
    unfold fireInterval
    split
    · exact ⟨hc, hl⟩
    · exact ⟨hc, hl⟩
  | teardown =>
    show Coherent (pollingCleanup h) ∧ (pollingCleanup h).visibilityListeners ≤ 1
    refine ⟨(coherent_stopPolling h hc).1, ?_⟩
    show (stopPolling h).visibilityListeners - 1 ≤ 1
    rw [(stopPolling_frame h).2]
    omega

theorem coherent_after (events : List Event) (h : Host) (hc : Coherent h)
    (hl : h.visibilityListeners ≤ 1) :
    Coherent (h.after events) ∧ (h.after events).visibilityListeners ≤ 1 := by
  induction events generalizing h with
  | nil => exact ⟨hc, hl⟩
  | cons e rest ih =>
    have hs := coherent_step h e hc hl
    exact ih (h.step e) hs.1 hs.2

theorem coherent_mounted (lastTimerId : Nat) :
    Coherent (mounted lastTimerId) ∧ (mounted lastTimerId).visibilityListeners ≤ 1 := by
  constructor
  · exact coherent_startPolling { lastTimerId := lastTimerId } rfl
  · show (startPolling { lastTimerId := lastTimerId }).visibilityListeners + 1 ≤ 1
    rw [(startPolling_frame _).2]

/-- C15. From every state a mounted scheduler can reach, teardown leaves the handle
`null`, no timer active and no visibility listener registered; afterwards a timer
firing and a visibility event change nothing, so neither starts a refresh. -/
theorem teardown_cleans_up (lastTimerId : Nat) (events : List Event) :
    (pollingCleanup ((mounted lastTimerId).after events)).intervalRef = none ∧
    (pollingCleanup ((mounted lastTimerId).after events)).intervals = [] ∧
    (pollingCleanup ((mounted lastTimerId).after events)).visibilityListeners = 0 ∧
    (∀ id, fireInterval id (pollingCleanup ((mounted lastTimerId).after events)) =
      pollingCleanup ((mounted lastTimerId).after events)) ∧
    (∀ visibilityState,
      dispatchVisibilityChange visibilityState
          (pollingCleanup ((mounted lastTimerId).after events)) =
        pollingCleanup ((mounted lastTimerId).after events)) := by
  obtain ⟨hc, hl⟩ := coherent_after events (mounted lastTimerId)
    (coherent_mounted lastTimerId).1 (coherent_mounted lastTimerId).2
  generalize (mounted lastTimerId).after events = h at hc hl
  obtain ⟨_, hr, hi⟩ := coherent_stopPolling h hc
  have hz : (pollingCleanup h).visibilityListeners = 0 := by
    show (stopPolling h).visibilityListeners - 1 = 0
    rw [(stopPolling_frame h).2]
    omega
  refine ⟨hr, hi, hz, fun id => fireInterval_of_no_intervals (pollingCleanup h) hi id, ?_⟩
  intro visibilityState
  unfold dispatchVisibilityChange
  rw [hz]
  rfl

/-! ## Assignment handler -/

/-- The requests of a refresh are the four list requests. -/
theorem requests_of_fetchAllData (api : ListOutcomes) (order : List Nat) (showLoader : Bool)
    (c : ApiCall) (h : Effect.request c ∈ (fetchAllData api order showLoader).effects) :
    c = .getAppointments ∨ c = .getEmergencies ∨ c = .getInquiries ∨ c = .getMechanics := by
  rw [fetchAllData_run] at h
  simp only [List.mem_append, List.mem_singleton] at h
  rcases h with ((h | h) | h) | h
  · cases showLoader <;> simp at h
  · cases h
  · obtain ⟨t, ht, het⟩ := mem_promiseAll _ _ _ h
    simp only [List.mem_cons, List.mem_singleton, List.not_mem_nil, or_false] at ht
    rcases ht with rfl | rfl | rfl | rfl
    · rw [fetchAppointments_run] at het
      cases ho : api.getAppointments <;> rw [ho] at het <;> simp at het <;> simp [het]
    · rw [fetchEmergencies_run] at het
      cases ho : api.getEmergencies <;> rw [ho] at het <;> simp at het <;> simp [het]
    · rw [fetchInquiries_run] at het
      cases ho : api.getInquiries <;> rw [ho] at het <;> simp at het <;> simp [het]
    · rw [fetchMechanics_run] at het
      cases ho : api.getMechanics <;> rw [ho] at het <;> simp at het <;> simp [het]
  · cases showLoader <;> simp at h

/-- The trace of `handleAssignTask` when the assignment request succeeds. -/
theorem handleAssignTask_ok (selectedTask : Task) (api : ListOutcomes) (order : List Nat)
    (mechanicId : String) :
    handleAssignTask selectedTask (.ok ()) api order mechanicId =
      ⟨[.setLoading true, .setError none,
          .request (.assignTask mechanicId selectedTask._id selectedTask.taskType), .suspend,
          .alert "✅ Task assigned successfully!"] ++
        (fetchAllData api order false).effects ++
        [.setShowAssignModal false, .setSelectedTask none, .setLoading false], .ok ()⟩ := by
  unfold handleAssignTask
  rw [fetchAllData_run]
  simp [Bind.bind, Proc.bind, emit, tryCatch, tryCatchThe, MonadExcept.tryCatch,
    Proc.tryCatch, tryFinally, MonadFinally.tryFinally', Proc.tryFinally, Functor.map,
    Pure.pure, Proc.pure, awaitRequest]

/-- The trace of `handleAssignTask` when the assignment request is rejected. -/
theorem handleAssignTask_error (selectedTask : Task) (error : JSError) (api : ListOutcomes)
    (order : List Nat) (mechanicId : String) :
    handleAssignTask selectedTask (.error error) api order mechanicId =
      ⟨[.setLoading true, .setError none,
          .request (.assignTask mechanicId selectedTask._id selectedTask.taskType), .suspend,
          .console "Error assigning task:",
          .setError (some ("Assignment failed: " ++ errorText error)),
          .setLoading false], .ok ()⟩ := by
  unfold handleAssignTask
  simp [Bind.bind, Proc.bind, emit, tryCatch, tryCatchThe, MonadExcept.tryCatch,
    Proc.tryCatch, tryFinally, MonadFinally.tryFinally', Proc.tryFinally, Functor.map,
    Pure.pure, Proc.pure, awaitRequest]

theorem no_assignTask_in_fetchAllData (api : ListOutcomes) (order : List Nat)
    (showLoader : Bool) :
    (fetchAllData api order showLoader).effects.filter isAssignTaskRequest = [] := by
  rw [List.filter_eq_nil_iff]
  intro e he hq
  cases e with
  | request c =>
    cases c with
    | assignTask a b d =>
      have := requests_of_fetchAllData api order showLoader _ he
      simp at this
    | _ => simp [isAssignTaskRequest] at hq
  | _ => simp [isAssignTaskRequest] at hq

/-- C16. Whatever way the assignment request settles, `handleAssignTask` calls
`assignTask` exactly once, with the given mechanic id and the selected task's `_id`
and `taskType`. When the request succeeds, what follows is the alert, one whole
`fetchAllData(false)`, then `setShowAssignModal(false)`, `setSelectedTask(null)` and
`setLoading(false)`; at the end the modal is closed, no task is selected and
loading is false. -/
theorem handleAssignTask_success (selectedTask : Task) (api : ListOutcomes)
    (order : List Nat) (mechanicId : String) (s : Dashboard) :
    (∀ assignTask : Except JSError Unit,
      (handleAssignTask selectedTask assignTask api order mechanicId).effects.filter
          isAssignTaskRequest =
        [.request (.assignTask mechanicId selectedTask._id selectedTask.taskType)]) ∧
    (handleAssignTask selectedTask (.ok ()) api order mechanicId).effects =
      [.setLoading true, .setError none,
          .request (.assignTask mechanicId selectedTask._id selectedTask.taskType), .suspend,
          .alert "✅ Task assigned successfully!"] ++
        (fetchAllData api order false).effects ++
        [.setShowAssignModal false, .setSelectedTask none, .setLoading false] ∧
    (handleAssignTask selectedTask (.ok ()) api order mechanicId).result = .ok () ∧
    (s.run (handleAssignTask selectedTask (.ok ()) api order mechanicId).effects).showAssignModal =
      false ∧
    (s.run (handleAssignTask selectedTask (.ok ()) api order mechanicId).effects).selectedTask =
      none ∧
    (s.run (handleAssignTask selectedTask (.ok ()) api order mechanicId).effects).loading =
      false := by
  refine ⟨?_, ?_, ?_, ?_, ?_, ?_⟩
  · intro assignTask
    rcases assignTask with error | ⟨⟩
    · rw [handleAssignTask_error]
      rfl
    · rw [handleAssignTask_ok]
      simp only [List.filter_append, no_assignTask_in_fetchAllData]
      rfl
  · rw [handleAssignTask_ok]
  · rw [handleAssignTask_ok]
  · rw [handleAssignTask_ok, run_append]; rfl
  · rw [handleAssignTask_ok, run_append]; rfl
  · rw [handleAssignTask_ok, run_append]; rfl

/-- C17. When the assignment request is rejected, `handleAssignTask` logs, sets the
error flag to "Assignment failed: " followed by the backend's message (when the
error carries a non-empty one, and by `error.message` otherwise) and switches
loading off. Its only request is the one `assignTask` call, so there is no refresh
and no retry; the selected task, the modal and the four collections are as before. -/
theorem handleAssignTask_failure (selectedTask : Task) (error : JSError)
    (api : ListOutcomes) (order : List Nat) (mechanicId : String) (s : Dashboard) :
    (handleAssignTask selectedTask (.error error) api order mechanicId).effects =
      [.setLoading true, .setError none,
        .request (.assignTask mechanicId selectedTask._id selectedTask.taskType), .suspend,
        .console "Error assigning task:",
        .setError (some ("Assignment failed: " ++ errorText error)),
        .setLoading false] ∧
    (handleAssignTask selectedTask (.error error) api order mechanicId).effects.filter
        isRequest =
      [.request (.assignTask mechanicId selectedTask._id selectedTask.taskType)] ∧
    s.run (handleAssignTask selectedTask (.error error) api order mechanicId).effects =
      { s with
        loading := false
        error := some ("Assignment failed: " ++ errorText error) } ∧
    (∀ message, error.responseMessage = some message → message ≠ "" →
      (s.run (handleAssignTask selectedTask (.error error) api order mechanicId).effects).error =
        some ("Assignment failed: " ++ message)) ∧
    (error.responseMessage = none →
      (s.run (handleAssignTask selectedTask (.error error) api order mechanicId).effects).error =
        some ("Assignment failed: " ++ error.message)) := by
  rw [handleAssignTask_error]
  refine ⟨rfl, rfl, rfl, ?_, ?_⟩
  · intro message hm hne
    show some ("Assignment failed: " ++ errorText error) = _
    simp [errorText, hm, hne]
  · intro hm
    show some ("Assignment failed: " ++ errorText error) = _
    simp [errorText, hm]

/-! ## Registration handler -/

theorem handleCreateMechanic_missing_field (newMechanic : NewMechanic)
    (registerMechanic : Except JSError Unit)
    (getMechanics : Except JSError (Response Mechanic))
    (h : newMechanic.name = "" ∨ newMechanic.email = "" ∨ newMechanic.phone = "" ∨
      newMechanic.password = "") :
    handleCreateMechanic newMechanic registerMechanic getMechanics =
      ⟨[.setError (some "Please fill in all required fields")], .ok ()⟩ := by
  unfold handleCreateMechanic
  rw [if_pos h]
  rfl

theorem handleCreateMechanic_no_specialization (newMechanic : NewMechanic)
    (registerMechanic : Except JSError Unit)
    (getMechanics : Except JSError (Response Mechanic))
    (h : ¬ (newMechanic.name = "" ∨ newMechanic.email = "" ∨ newMechanic.phone = "" ∨
      newMechanic.password = ""))
    (hs : specializationValid newMechanic = false) :
    handleCreateMechanic newMechanic registerMechanic getMechanics =
      ⟨[.setError (some "Please select at least one specialization")], .ok ()⟩ := by
  unfold handleCreateMechanic
  rw [if_neg h, if_pos (by simp [hs])]
  rfl

theorem handleCreateMechanic_ok (newMechanic : NewMechanic)
    (getMechanics : Except JSError (Response Mechanic))
    (h : ¬ (newMechanic.name = "" ∨ newMechanic.email = "" ∨ newMechanic.phone = "" ∨
      newMechanic.password = ""))
    (hs : specializationValid newMechanic = true) :
    handleCreateMechanic newMechanic (.ok ()) getMechanics =
      ⟨[.setLoading true, .request (.registerMechanic (payload newMechanic)), .suspend] ++
        (fetchMechanics getMechanics).effects ++
        [.setShowCreateMechanicModal false, .setNewMechanic emptyMechanic,
          .alert "✅ Mechanic created successfully!", .setLoading false], .ok ()⟩ := by
  unfold handleCreateMechanic
  rw [if_neg h, if_neg (by simp [hs]), fetchMechanics_run]
  simp [Bind.bind, Proc.bind, emit, tryCatch, tryCatchThe, MonadExcept.tryCatch,
    Proc.tryCatch, tryFinally, MonadFinally.tryFinally', Proc.tryFinally, Functor.map,
    Pure.pure, Proc.pure, awaitRequest]

theorem handleCreateMechanic_error (newMechanic : NewMechanic) (error : JSError)
    (getMechanics : Except JSError (Response Mechanic))
    (h : ¬ (newMechanic.name = "" ∨ newMechanic.email = "" ∨ newMechanic.phone = "" ∨
      newMechanic.password = ""))
    (hs : specializationValid newMechanic = true) :
    handleCreateMechanic newMechanic (.error error) getMechanics =
      ⟨[.setLoading true, .request (.registerMechanic (payload newMechanic)), .suspend,
          .console "Error creating mechanic:",
          .setError (some ("Failed to create mechanic: " ++ errorText error)),
          .setLoading false], .ok ()⟩ := by
  unfold handleCreateMechanic
  rw [if_neg h, if_neg (by simp [hs])]
  simp [Bind.bind, Proc.bind, emit, tryCatch, tryCatchThe, MonadExcept.tryCatch,
    Proc.tryCatch, tryFinally, MonadFinally.tryFinally', Proc.tryFinally, Functor.map,
    Pure.pure, Proc.pure, awaitRequest]

/-- C18. With any of name, email, phone or password empty, `handleCreateMechanic`
does one thing: it sets the error flag to "Please fill in all required fields". It
makes no request, and the form, its open state, the loading flag and the four
collections are as before. -/
theorem handleCreateMechanic_requires_fields (newMechanic : NewMechanic)
    (registerMechanic : Except JSError Unit)
    (getMechanics : Except JSError (Response Mechanic)) (s : Dashboard)
    (h : newMechanic.name = "" ∨ newMechanic.email = "" ∨ newMechanic.phone = "" ∨
      newMechanic.password = "") :
    (handleCreateMechanic newMechanic registerMechanic getMechanics).effects =
      [.setError (some "Please fill in all required fields")] ∧
    (handleCreateMechanic newMechanic registerMechanic getMechanics).effects.filter
      isRequest = [] ∧
    s.run (handleCreateMechanic newMechanic registerMechanic getMechanics).effects =
      { s with error := some "Please fill in all required fields" } := by
  rw [handleCreateMechanic_missing_field _ _ _ h]
  exact ⟨rfl, rfl, rfl⟩

/-- A form complete but for the password, on an open create form. -/
theorem handleCreateMechanic_requires_fields_witness :
    (handleCreateMechanic ⟨"Asha", "asha@example.com", "9876543210", "",
        .array ["doorstep-service"], 3, "Pune"⟩ (.ok ()) (.ok ⟨some []⟩)).effects.filter
      isRequest = [] ∧
    ({ showCreateMechanicModal := true } : Dashboard).run
        (handleCreateMechanic ⟨"Asha", "asha@example.com", "9876543210", "",
          .array ["doorstep-service"], 3, "Pune"⟩ (.ok ()) (.ok ⟨some []⟩)).effects =
      { showCreateMechanicModal := true, error := some "Please fill in all required fields" } :=
  ⟨(handleCreateMechanic_requires_fields _ _ _ {} (Or.inr (Or.inr (Or.inr rfl)))).2.1,
    (handleCreateMechanic_requires_fields _ _ _ { showCreateMechanicModal := true }
      (Or.inr (Or.inr (Or.inr rfl)))).2.2⟩

/-- The requests of `handleCreateMechanic` once validation has passed: the
registration, followed by the mechanic list request when the registration succeeds. -/
theorem handleCreateMechanic_requests (newMechanic : NewMechanic)
    (registerMechanic : Except JSError Unit)
    (getMechanics : Except JSError (Response Mechanic))
    (h : ¬ (newMechanic.name = "" ∨ newMechanic.email = "" ∨ newMechanic.phone = "" ∨
      newMechanic.password = ""))
    (hs : specializationValid newMechanic = true) :
    (handleCreateMechanic newMechanic registerMechanic getMechanics).effects.filter
        isRequest =
      .request (.registerMechanic (payload newMechanic)) ::
        (match registerMechanic with
         | .ok _ => [.request .getMechanics]
         | .error _ => []) := by
  rcases registerMechanic with error | ⟨⟩
  · rw [handleCreateMechanic_error _ _ _ h hs]
    rfl
  · rw [handleCreateMechanic_ok _ _ h hs, fetchMechanics_run]
    cases getMechanics <;> rfl

/-- C19. With name, email, phone and password filled in: an empty array, a missing
single value or an empty single value makes `handleCreateMechanic` set the error
to "Please select at least one specialization" and make no request. Otherwise the
one registration request carries the form with `specialization` replaced by the
array itself (array case) or by the one-element array of the single value, every
other field being the form's; the mechanic list request follows only when the
registration succeeds. -/
theorem handleCreateMechanic_specialization (newMechanic : NewMechanic)
    (registerMechanic : Except JSError Unit)
    (getMechanics : Except JSError (Response Mechanic))
    (hname : newMechanic.name ≠ "") (hemail : newMechanic.email ≠ "")
    (hphone : newMechanic.phone ≠ "") (hpassword : newMechanic.password ≠ "") :
    ((newMechanic.specialization = .array [] ∨ newMechanic.specialization = .single none ∨
        newMechanic.specialization = .single (some "")) →
      (handleCreateMechanic newMechanic registerMechanic getMechanics).effects =
        [.setError (some "Please select at least one specialization")]) ∧
    (∀ values, newMechanic.specialization = .array values → values ≠ [] →
      (handleCreateMechanic newMechanic registerMechanic getMechanics).effects.filter
          isRequest =
        .request (.registerMechanic { newMechanic with specialization := .array values }) ::
          (match registerMechanic with
           | .ok _ => [.request .getMechanics]
           | .error _ => [])) ∧
    (∀ value, newMechanic.specialization = .single (some value) → value ≠ "" →
      (handleCreateMechanic newMechanic registerMechanic getMechanics).effects.filter
          isRequest =
        .request (.registerMechanic { newMechanic with specialization := .array [value] }) ::
          (match registerMechanic with
           | .ok _ => [.request .getMechanics]
           | .error _ => [])) := by
  have h : ¬ (newMechanic.name = "" ∨ newMechanic.email = "" ∨ newMechanic.phone = "" ∨
      newMechanic.password = "") := by
    simp [hname, hemail, hphone, hpassword]
  refine ⟨?_, ?_, ?_⟩
  · intro hspec
    have hs : specializationValid newMechanic = false := by
      unfold specializationValid
      rcases hspec with hspec | hspec | hspec <;> rw [hspec] <;> simp
    rw [handleCreateMechanic_no_specialization _ _ _ h hs]
  · intro values hspec hne
    have hs : specializationValid newMechanic = true := by
      unfold specializationValid
      rw [hspec]
      simpa [List.length_pos] using hne
    rw [handleCreateMechanic_requests _ _ _ h hs]
    simp [payload, hspec]
  · intro value hspec hne
    have hs : specializationValid newMechanic = true := by
      unfold specializationValid
      rw [hspec]
      simpa using hne
    rw [handleCreateMechanic_requests _ _ _ h hs]
    simp [payload, hspec]

/-- A form with the single value "emergency-repair" selected: the registration
request carries the one-element array. -/
theorem handleCreateMechanic_specialization_witness :
    (handleCreateMechanic ⟨"Asha", "asha@example.com", "9876543210", "secret",
        .single (some "emergency-repair"), 3, "Pune"⟩ (.error ⟨"Network Error", none⟩)
        (.ok ⟨none⟩)).effects.filter isRequest =
      [.request (.registerMechanic ⟨"Asha", "asha@example.com", "9876543210", "secret",
        .array ["emergency-repair"], 3, "Pune"⟩)] :=
  (handleCreateMechanic_specialization ⟨"Asha", "asha@example.com", "9876543210", "secret",
      .single (some "emergency-repair"), 3, "Pune"⟩ (.error ⟨"Network Error", none⟩)
      (.ok ⟨none⟩) (by decide) (by decide) (by decide) (by decide)).2.2
    "emergency-repair" rfl (by decide)

/-- C20. When validation passes and the registration succeeds, then however the
mechanic list request settles: the mechanic collection is replaced by what that
request delivers (its list, or the empty list when the data is missing or the
request is rejected), the create form is closed, the form is reset to its empty
defaults, loading is false, and nothing else changes, the other three collections
included. -/
theorem handleCreateMechanic_success (newMechanic : NewMechanic)
    (getMechanics : Except JSError (Response Mechanic)) (s : Dashboard)
    (hname : newMechanic.name ≠ "") (hemail : newMechanic.email ≠ "")
    (hphone : newMechanic.phone ≠ "") (hpassword : newMechanic.password ≠ "")
    (hs : specializationValid newMechanic = true) :
    (handleCreateMechanic newMechanic (.ok ()) getMechanics).effects =
      [.setLoading true, .request (.registerMechanic (payload newMechanic)), .suspend] ++
        (fetchMechanics getMechanics).effects ++
        [.setShowCreateMechanicModal false,
          .setNewMechanic ⟨"", "", "", "", .array [], 0, ""⟩,
          .alert "✅ Mechanic created successfully!", .setLoading false] ∧
    s.run (handleCreateMechanic newMechanic (.ok ()) getMechanics).effects =
      { s with
        mechanics :=
          match getMechanics with
          | .ok ⟨some l⟩ => l
          | .ok ⟨none⟩ => []
          | .error _ => []
        showCreateMechanicModal := false
        newMechanic := ⟨"", "", "", "", .array [], 0, ""⟩
        loading := false } ∧
    (s.run (handleCreateMechanic newMechanic (.ok ()) getMechanics).effects).mechanics =
      (s.run (fetchMechanics getMechanics).effects).mechanics := by
  have h : ¬ (newMechanic.name = "" ∨ newMechanic.email = "" ∨ newMechanic.phone = "" ∨
      newMechanic.password = "") := by
    simp [hname, hemail, hphone, hpassword]
  rw [handleCreateMechanic_ok _ _ h hs, fetchMechanics_run]
  refine ⟨rfl, ?_, ?_⟩
  · rcases getMechanics with _ | ⟨_ | _⟩ <;> rfl
  · rcases getMechanics with _ | ⟨_ | _⟩ <;> rfl

/-- A valid form is submitted and the list request that follows is rejected: the
mechanic collection is emptied, the form closed and reset, the appointments kept. -/
theorem handleCreateMechanic_success_witness :
    ({ appointments := [⟨"a1", none, none⟩], showCreateMechanicModal := true,
        newMechanic := ⟨"Asha", "asha@example.com", "9876543210", "secret",
          .array ["doorstep-service"], 3, "Pune"⟩ } : Dashboard).run
        (handleCreateMechanic ⟨"Asha", "asha@example.com", "9876543210", "secret",
          .array ["doorstep-service"], 3, "Pune"⟩ (.ok ())
          (.error ⟨"Network Error", none⟩)).effects =
      { appointments := [⟨"a1", none, none⟩] } :=
  (handleCreateMechanic_success ⟨"Asha", "asha@example.com", "9876543210", "secret",
      .array ["doorstep-service"], 3, "Pune"⟩ (.error ⟨"Network Error", none⟩)
      { appointments := [⟨"a1", none, none⟩], showCreateMechanicModal := true,
        newMechanic := ⟨"Asha", "asha@example.com", "9876543210", "secret",
          .array ["doorstep-service"], 3, "Pune"⟩ }
      (by decide) (by decide) (by decide) (by decide) (by decide)).2.1

/-! ## Registration failure and the ownership of shared state -/

/-- C21, as stated, fails: with validation passed and the registration rejected with
the backend message "Email already registered", the error flag is not that message
but the message behind the handler's own "Failed to create mechanic: ". -/
theorem registration_error_not_verbatim :
    (({ showCreateMechanicModal := true } : Dashboard).run
        (handleCreateMechanic ⟨"Asha", "asha@example.com", "9876543210", "secret",
          .array ["doorstep-service"], 3, "Pune"⟩
          (.error ⟨"Request failed with status code 400", some "Email already registered"⟩)
          (.ok ⟨none⟩)).effects).error =
      some "Failed to create mechanic: Email already registered" ∧
    (({ showCreateMechanicModal := true } : Dashboard).run
        (handleCreateMechanic ⟨"Asha", "asha@example.com", "9876543210", "secret",
          .array ["doorstep-service"], 3, "Pune"⟩
          (.error ⟨"Request failed with status code 400", some "Email already registered"⟩)
          (.ok ⟨none⟩)).effects).error ≠
      some "Email already registered" := by
  rw [handleCreateMechanic_error _ _ _ (by decide) (by decide)]
  constructor
  · rfl
  · decide

/-- C21, amended. When validation passes and the registration is rejected, the error
flag is set to "Failed to create mechanic: " followed by the backend's message when
the error carries a non-empty one, and by `error.message` otherwise. The only
request is the registration; the final state differs from the initial one only in
the error flag and in loading, which is false: the form stays open with its
contents and the mechanic collection is neither fetched nor changed. -/
theorem handleCreateMechanic_failure (newMechanic : NewMechanic) (error : JSError)
    (getMechanics : Except JSError (Response Mechanic)) (s : Dashboard)
    (hname : newMechanic.name ≠ "") (hemail : newMechanic.email ≠ "")
    (hphone : newMechanic.phone ≠ "") (hpassword : newMechanic.password ≠ "")
    (hs : specializationValid newMechanic = true) :
    s.run (handleCreateMechanic newMechanic (.error error) getMechanics).effects =
      { s with
        loading := false
        error := some ("Failed to create mechanic: " ++ errorText error) } ∧
    (∀ message, error.responseMessage = some message → message ≠ "" →
      (s.run (handleCreateMechanic newMechanic (.error error) getMechanics).effects).error =
        some ("Failed to create mechanic: " ++ message)) ∧
    ((error.responseMessage = none ∨ error.responseMessage = some "") →
      (s.run (handleCreateMechanic newMechanic (.error error) getMechanics).effects).error =
        some ("Failed to create mechanic: " ++ error.message)) ∧
    (handleCreateMechanic newMechanic (.error error) getMechanics).effects.filter isRequest =
      [.request (.registerMechanic (payload newMechanic))] := by
  have h : ¬ (newMechanic.name = "" ∨ newMechanic.email = "" ∨ newMechanic.phone = "" ∨
      newMechanic.password = "") := by
    simp [hname, hemail, hphone, hpassword]
  rw [handleCreateMechanic_error _ _ _ h hs]
  refine ⟨rfl, ?_, ?_, rfl⟩
  · intro message hm hne
    show some ("Failed to create mechanic: " ++ errorText error) = _
    simp [errorText, hm, hne]
  · intro hm
    show some ("Failed to create mechanic: " ++ errorText error) = _
    rcases hm with hm | hm <;> simp [errorText, hm]

/-- A rejected registration without a backend message, on an open form. -/
theorem handleCreateMechanic_failure_witness :
    ({ showCreateMechanicModal := true,
        newMechanic := ⟨"Asha", "asha@example.com", "9876543210", "secret",
          .array ["doorstep-service"], 3, "Pune"⟩ } : Dashboard).run
        (handleCreateMechanic ⟨"Asha", "asha@example.com", "9876543210", "secret",
          .array ["doorstep-service"], 3, "Pune"⟩ (.error ⟨"Network Error", none⟩)
          (.ok ⟨none⟩)).effects =
      { showCreateMechanicModal := true,
        newMechanic := ⟨"Asha", "asha@example.com", "9876543210", "secret",
          .array ["doorstep-service"], 3, "Pune"⟩,
        error := some "Failed to create mechanic: Network Error" } :=
  (handleCreateMechanic_failure ⟨"Asha", "asha@example.com", "9876543210", "secret",
      .array ["doorstep-service"], 3, "Pune"⟩ ⟨"Network Error", none⟩ (.ok ⟨none⟩)
      { showCreateMechanicModal := true,
        newMechanic := ⟨"Asha", "asha@example.com", "9876543210", "secret",
          .array ["doorstep-service"], 3, "Pune"⟩ }
      (by decide) (by decide) (by decide) (by decide) (by decide)).1

theorem writesOnlyIn_nil (p : Effect → Bool) (trace : List Effect)
    (h : ∀ e ∈ trace, p e = false) : WritesOnlyIn p trace [] :=
  ⟨trace, [], by simp, by simpa using h⟩

theorem writesOnlyIn_mid (p : Effect → Bool) (before refresh after : List Effect)
    (h : ∀ e ∈ before ++ after, p e = false) :
    WritesOnlyIn p (before ++ refresh ++ after) refresh :=
  ⟨before, after, rfl, h⟩

/-- C22, as stated, fails: a rejected assignment invokes no refresh (its only request
is the `assignTask` call), yet `handleAssignTask` itself writes the loading flag and
the error flag. -/
theorem handleAssignTask_writes_flags_directly :
    (handleAssignTask ⟨"t1", some "pending", none, some "appointment"⟩
        (.error ⟨"Network Error", none⟩) ⟨.ok ⟨none⟩, .ok ⟨none⟩, .ok ⟨none⟩, .ok ⟨none⟩⟩
        [0, 1, 2, 3] "m1").effects.filter isRequest =
      [.request (.assignTask "m1" "t1" (some "appointment"))] ∧
    ¬ WritesOnlyIn isSharedWrite
      (handleAssignTask ⟨"t1", some "pending", none, some "appointment"⟩
        (.error ⟨"Network Error", none⟩) ⟨.ok ⟨none⟩, .ok ⟨none⟩, .ok ⟨none⟩, .ok ⟨none⟩⟩
        [0, 1, 2, 3] "m1").effects [] := by
  rw [handleAssignTask_error]
  refine ⟨rfl, ?_⟩
  rintro ⟨before, after, heq, hall⟩
  have hin : Effect.setLoading true ∈ before ++ after := by
    rw [List.append_nil] at heq
    rw [← heq]
    simp
  have := hall _ hin
  simp [isSharedWrite] at this

/-- C22, amended. `handleAssignTask` and `handleCreateMechanic` write the four
collections only through the refresh they invoke: every collection write in their
trace lies inside the run of `fetchAllData(false)` (assignment) or `fetchMechanics`
(registration), and a run that invokes no refresh writes no collection. The loading
and error flags they write themselves. -/
theorem handlers_write_collections_through_refresh :
    (∀ (selectedTask : Task) (api : ListOutcomes) (order : List Nat) (mechanicId : String),
      WritesOnlyIn isCollectionWrite
        (handleAssignTask selectedTask (.ok ()) api order mechanicId).effects
        (fetchAllData api order false).effects) ∧
    (∀ (selectedTask : Task) (error : JSError) (api : ListOutcomes) (order : List Nat)
        (mechanicId : String),
      WritesOnlyIn isCollectionWrite
        (handleAssignTask selectedTask (.error error) api order mechanicId).effects []) ∧
    (∀ (newMechanic : NewMechanic) (registerMechanic : Except JSError Unit)
        (getMechanics : Except JSError (Response Mechanic)),
      WritesOnlyIn isCollectionWrite
          (handleCreateMechanic newMechanic registerMechanic getMechanics).effects
          (fetchMechanics getMechanics).effects ∨
        WritesOnlyIn isCollectionWrite
          (handleCreateMechanic newMechanic registerMechanic getMechanics).effects []) ∧
    (∀ (selectedTask : Task) (assignTask : Except JSError Unit) (api : ListOutcomes)
        (order : List Nat) (mechanicId : String),
      Effect.setLoading true ∈
          (handleAssignTask selectedTask assignTask api order mechanicId).effects ∧
        Effect.setError none ∈
          (handleAssignTask selectedTask assignTask api order mechanicId).effects) := by
  refine ⟨?_, ?_, ?_, ?_⟩
  · intro selectedTask api order mechanicId
    rw [handleAssignTask_ok]
    exact writesOnlyIn_mid _ _ _ _ (by simp [isCollectionWrite])
  · intro selectedTask error api order mechanicId
    rw [handleAssignTask_error]
    exact writesOnlyIn_nil _ _ (by simp [isCollectionWrite])
  · intro newMechanic registerMechanic getMechanics
    by_cases h : newMechanic.name = "" ∨ newMechanic.email = "" ∨ newMechanic.phone = "" ∨
        newMechanic.password = ""
    · rw [handleCreateMechanic_missing_field _ _ _ h]
      exact Or.inr (writesOnlyIn_nil _ _ (by simp [isCollectionWrite]))
    · cases hs : specializationValid newMechanic with
      | false =>
        rw [handleCreateMechanic_no_specialization _ _ _ h hs]
        exact Or.inr (writesOnlyIn_nil _ _ (by simp [isCollectionWrite]))
      | true =>
        rcases registerMechanic with error | ⟨⟩
        · rw [handleCreateMechanic_error _ _ _ h hs]
          exact Or.inr (writesOnlyIn_nil _ _ (by simp [isCollectionWrite]))
        · rw [handleCreateMechanic_ok _ _ h hs]
          exact Or.inl (writesOnlyIn_mid _ _ _ _ (by simp [isCollectionWrite]))
  · intro selectedTask assignTask api order mechanicId
    rcases assignTask with error | ⟨⟩
    · rw [handleAssignTask_error]; simp
    · rw [handleAssignTask_ok]; simp

/-! ## Status badges and status updates -/

/-- C24. The badge style is chosen for every status value, whatever the names in
`STATUS`: the result is always one of the five styles, the badge text is defined
too (nothing for a missing status), and a status, missing or not, that is none of
the four styled names of its entity gets the gray style. -/
theorem badge_style_total (STATUS : StatusNames) (status : Option String)
    (toUpperCase : String → String) :
    (appointmentBadgeStyle STATUS status ∈
      ["bg-yellow-100 text-yellow-800", "bg-blue-100 text-blue-800",
        "bg-purple-100 text-purple-800", "bg-green-100 text-green-800",
        "bg-gray-100 text-gray-800"]) ∧
    (inquiryBadgeStyle STATUS status ∈
      ["bg-yellow-100 text-yellow-800", "bg-blue-100 text-blue-800",
        "bg-purple-100 text-purple-800", "bg-green-100 text-green-800",
        "bg-gray-100 text-gray-800"]) ∧
    ((status ≠ STATUS.PENDING ∧ status ≠ STATUS.CONFIRMED ∧ status ≠ STATUS.IN_PROGRESS ∧
        status ≠ STATUS.COMPLETED) →
      appointmentBadgeStyle STATUS status = "bg-gray-100 text-gray-800") ∧
    ((status ≠ STATUS.PENDING ∧ status ≠ STATUS.CONTACTED ∧ status ≠ STATUS.QUOTED ∧
        status ≠ STATUS.COMPLETED) →
      inquiryBadgeStyle STATUS status = "bg-gray-100 text-gray-800") ∧
    badgeText toUpperCase none = none ∧
    badgeClassName (appointmentBadgeStyle STATUS status) =
      "inline-flex px-2 py-1 text-xs font-semibold rounded-full " ++
        appointmentBadgeStyle STATUS status := by
  refine ⟨?_, ?_, ?_, ?_, rfl, rfl⟩
  · unfold appointmentBadgeStyle
    split_ifs <;> simp
  · unfold inquiryBadgeStyle
    split_ifs <;> simp
  · rintro ⟨h1, h2, h3, h4⟩
    simp [appointmentBadgeStyle, h1, h2, h3, h4]
  · rintro ⟨h1, h2, h3, h4⟩
    simp [inquiryBadgeStyle, h1, h2, h3, h4]

/-- With the names of the specification, a cancelled appointment, an appointment
without status and an inquiry with an unknown status all get the gray style. -/
theorem badge_style_total_witness :
    appointmentBadgeStyle ⟨some "pending", some "confirmed", some "in-progress",
        some "completed", some "cancelled", some "contacted", some "quoted"⟩
        (some "cancelled") = "bg-gray-100 text-gray-800" ∧
    appointmentBadgeStyle ⟨some "pending", some "confirmed", some "in-progress",
        some "completed", some "cancelled", some "contacted", some "quoted"⟩
        none = "bg-gray-100 text-gray-800" ∧
    inquiryBadgeStyle ⟨some "pending", some "confirmed", some "in-progress",
        some "completed", some "cancelled", some "contacted", some "quoted"⟩
        (some "archived") = "bg-gray-100 text-gray-800" :=
  ⟨(badge_style_total _ _ id).2.2.1 (by decide), (badge_style_total _ _ id).2.2.1 (by decide),
    (badge_style_total _ _ id).2.2.2.1 (by decide)⟩

theorem updateAppointmentStatus_ok (id status : String)
    (getAppointments : Except JSError (Response Appointment)) :
    updateAppointmentStatus id status (.ok ()) getAppointments =
      ⟨[.setLoading true, .request (.updateAppointment id status), .suspend] ++
        (fetchAppointments getAppointments).effects ++ [.setLoading false], .ok ()⟩ := by
  unfold updateAppointmentStatus
  rw [fetchAppointments_run]
  simp [Bind.bind, Proc.bind, emit, tryCatch, tryCatchThe, MonadExcept.tryCatch,
    Proc.tryCatch, tryFinally, MonadFinally.tryFinally', Proc.tryFinally, Functor.map,
    Pure.pure, Proc.pure, awaitRequest]

theorem updateAppointmentStatus_error (id status : String) (error : JSError)
    (getAppointments : Except JSError (Response Appointment)) :
    updateAppointmentStatus id status (.error error) getAppointments =
      ⟨[.setLoading true, .request (.updateAppointment id status), .suspend,
          .console "Error updating appointment:",
          .setError (some "Failed to update appointment status"), .setLoading false],
        .ok ()⟩ := by
  unfold updateAppointmentStatus
  simp [Bind.bind, Proc.bind, emit, tryCatch, tryCatchThe, MonadExcept.tryCatch,
    Proc.tryCatch, tryFinally, MonadFinally.tryFinally', Proc.tryFinally, Functor.map,
    Pure.pure, Proc.pure, awaitRequest]

theorem updateInquiryStatus_ok (id status : String)
    (getInquiries : Except JSError (Response Inquiry)) :
    updateInquiryStatus id status (.ok ()) getInquiries =
      ⟨[.setLoading true, .request (.updateInquiry id status), .suspend] ++
        (fetchInquiries getInquiries).effects ++ [.setLoading false], .ok ()⟩ := by
  unfold updateInquiryStatus
  rw [fetchInquiries_run]
  simp [Bind.bind, Proc.bind, emit, tryCatch, tryCatchThe, MonadExcept.tryCatch,
    Proc.tryCatch, tryFinally, MonadFinally.tryFinally', Proc.tryFinally, Functor.map,
    Pure.pure, Proc.pure, awaitRequest]

theorem updateInquiryStatus_error (id status : String) (error : JSError)
    (getInquiries : Except JSError (Response Inquiry)) :
    updateInquiryStatus id status (.error error) getInquiries =
      ⟨[.setLoading true, .request (.updateInquiry id status), .suspend,
          .console "Error updating inquiry:",
          .setError (some "Failed to update inquiry status"), .setLoading false],
        .ok ()⟩ := by
  unfold updateInquiryStatus
  simp [Bind.bind, Proc.bind, emit, tryCatch, tryCatchThe, MonadExcept.tryCatch,
    Proc.tryCatch, tryFinally, MonadFinally.tryFinally', Proc.tryFinally, Functor.map,
    Pure.pure, Proc.pure, awaitRequest]

/-- C30. A status update that succeeds re-fetches and replaces its own collection
only (appointments for `updateAppointmentStatus`, inquiries for
`updateInquiryStatus`) and ends with loading false; one that fails changes no
collection, sets the error flag to its fixed message and ends with loading false.
Nothing else changes in either case. -/
theorem status_update_frame (id status : String) (error : JSError)
    (getAppointments : Except JSError (Response Appointment))
    (getInquiries : Except JSError (Response Inquiry)) (s : Dashboard) :
    (s.run (updateAppointmentStatus id status (.ok ()) getAppointments).effects =
        { s with
          appointments :=
            match getAppointments with
            | .ok ⟨some l⟩ => l
            | .ok ⟨none⟩ => []
            | .error _ => []
          loading := false } ∧
      (updateAppointmentStatus id status (.ok ()) getAppointments).effects.filter isRequest =
        [.request (.updateAppointment id status), .request .getAppointments]) ∧
    (s.run (updateAppointmentStatus id status (.error error) getAppointments).effects =
        { s with error := some "Failed to update appointment status", loading := false } ∧
      (updateAppointmentStatus id status (.error error) getAppointments).effects.filter
          isRequest =
        [.request (.updateAppointment id status)]) ∧
    (s.run (updateInquiryStatus id status (.ok ()) getInquiries).effects =
        { s with
          inquiries :=
            match getInquiries with
            | .ok ⟨some l⟩ => l
            | .ok ⟨none⟩ => []
            | .error _ => []
          loading := false } ∧
      (updateInquiryStatus id status (.ok ()) getInquiries).effects.filter isRequest =
        [.request (.updateInquiry id status), .request .getInquiries]) ∧
    (s.run (updateInquiryStatus id status (.error error) getInquiries).effects =
        { s with error := some "Failed to update inquiry status", loading := false } ∧
      (updateInquiryStatus id status (.error error) getInquiries).effects.filter isRequest =
        [.request (.updateInquiry id status)]) := by
  rw [updateAppointmentStatus_ok, updateAppointmentStatus_error, updateInquiryStatus_ok,
    updateInquiryStatus_error, fetchAppointments_run, fetchInquiries_run]
  refine ⟨⟨?_, ?_⟩, ⟨rfl, rfl⟩, ⟨?_, ?_⟩, ⟨rfl, rfl⟩⟩
  · rcases getAppointments with _ | ⟨_ | _⟩ <;> rfl
  · rcases getAppointments with _ | ⟨_ | _⟩ <;> rfl
  · rcases getInquiries with _ | ⟨_ | _⟩ <;> rfl
  · rcases getInquiries with _ | ⟨_ | _⟩ <;> rfl

/-! ## Task selection -/

theorem not_select_fetchAllData (api : ListOutcomes) (order : List Nat) (showLoader : Bool)
    (v : Option Task) :
    Effect.setSelectedTask v ∉ (fetchAllData api order showLoader).effects := by
  intro h
  rcases effects_of_fetchAllData api order showLoader _ h with
    ⟨_, w, h⟩ | h | ⟨c, h⟩ | h | ⟨m, h⟩ | h | h | h | h <;> cases h

theorem not_assignTask_fetchAllData (api : ListOutcomes) (order : List Nat)
    (showLoader : Bool) (a b : String) (c : Option String) :
    Effect.request (.assignTask a b c) ∉ (fetchAllData api order showLoader).effects := by
  intro h
  have := requests_of_fetchAllData api order showLoader _ h
  simp at this

/-- The effects of `handleCreateMechanic`, whatever the form and the outcomes: it
either stops at a validation message or runs the registration. -/
theorem handleCreateMechanic_cases (newMechanic : NewMechanic)
    (registerMechanic : Except JSError Unit)
    (getMechanics : Except JSError (Response Mechanic)) :
    (handleCreateMechanic newMechanic registerMechanic getMechanics).effects =
        [.setError (some "Please fill in all required fields")] ∨
      (handleCreateMechanic newMechanic registerMechanic getMechanics).effects =
        [.setError (some "Please select at least one specialization")] ∨
      (∃ error, (handleCreateMechanic newMechanic registerMechanic getMechanics).effects =
        [.setLoading true, .request (.registerMechanic (payload newMechanic)), .suspend,
          .console "Error creating mechanic:",
          .setError (some ("Failed to create mechanic: " ++ errorText error)),
          .setLoading false]) ∨
      (handleCreateMechanic newMechanic registerMechanic getMechanics).effects =
        [.setLoading true, .request (.registerMechanic (payload newMechanic)), .suspend] ++
          (fetchMechanics getMechanics).effects ++
          [.setShowCreateMechanicModal false, .setNewMechanic emptyMechanic,
            .alert "✅ Mechanic created successfully!", .setLoading false] := by
  by_cases h : newMechanic.name = "" ∨ newMechanic.email = "" ∨ newMechanic.phone = "" ∨
      newMechanic.password = ""
  · rw [handleCreateMechanic_missing_field _ _ _ h]
    exact Or.inl rfl
  · cases hs : specializationValid newMechanic with
    | false =>
      rw [handleCreateMechanic_no_specialization _ _ _ h hs]
      exact Or.inr (Or.inl rfl)
    | true =>
      rcases registerMechanic with error | ⟨⟩
      · rw [handleCreateMechanic_error _ _ _ h hs]
        exact Or.inr (Or.inr (Or.inl ⟨error, rfl⟩))
      · rw [handleCreateMechanic_ok _ _ h hs]
        exact Or.inr (Or.inr (Or.inr rfl))

/-- Which tasks an action can select: the record of a rendered, unassigned
appointment with task type "appointment", or the record of a rendered, unassigned
emergency with task type "emergency". -/
theorem action_selects (s : Dashboard) (action : Action) (t : Task)
    (h : Effect.setSelectedTask (some t) ∈ action.effects s) :
    (∃ a ∈ s.appointments, assignButtonOffered a.assignedMechanic = true ∧
        t = ⟨a._id, a.status, a.assignedMechanic, some "appointment"⟩) ∨
      (∃ e ∈ s.emergencies, assignButtonOffered e.assignedMechanic = true ∧
        t = ⟨e._id, e.status, e.assignedMechanic, some "emergency"⟩) := by
  cases action with
  | fetchAllData api order showLoader =>
    exact absurd h (not_select_fetchAllData api order showLoader _)
  | handleCreateMechanic registerMechanic getMechanics =>
    simp only [Action.effects] at h
    split_ifs at h
    · rcases handleCreateMechanic_cases s.newMechanic registerMechanic getMechanics with
        hc | hc | ⟨error, hc⟩ | hc
      · rw [hc] at h; simp at h
      · rw [hc] at h; simp at h
      · rw [hc] at h; simp at h
      · rw [hc, fetchMechanics_run] at h
        cases getMechanics <;> simp at h
    · cases h
  | handleAssignTask mechanic assignTask api order =>
    simp only [Action.effects] at h
    split at h
    · split_ifs at h
      · rcases assignTask with error | ⟨⟩
        · rw [handleAssignTask_error] at h; simp at h
        · rw [handleAssignTask_ok] at h
          simp [not_select_fetchAllData] at h
      · cases h
    · cases h
  | updateAppointmentStatus appointment status updateAppointment getAppointments =>
    simp only [Action.effects] at h
    split_ifs at h
    · rcases updateAppointment with error | ⟨⟩
      · rw [updateAppointmentStatus_error] at h; simp at h
      · rw [updateAppointmentStatus_ok, fetchAppointments_run] at h
        cases getAppointments <;> simp at h
    · cases h
  | updateInquiryStatus inquiry status updateInquiry getInquiries =>
    simp only [Action.effects] at h
    split_ifs at h
    · rcases updateInquiry with error | ⟨⟩
      · rw [updateInquiryStatus_error] at h; simp at h
      · rw [updateInquiryStatus_ok, fetchInquiries_run] at h
        cases getInquiries <;> simp at h
    · cases h
  | assignAppointment appointment =>
    simp only [Action.effects] at h
    split_ifs at h with hg
    · simp [onAssignAppointmentClick] at h
      exact Or.inl ⟨appointment, hg.1, hg.2, h⟩
    · cases h
  | assignEmergency emergency =>
    simp only [Action.effects] at h
    split_ifs at h with hg
    · simp [onAssignEmergencyClick] at h
      exact Or.inr ⟨emergency, hg.1, hg.2, h⟩
    · cases h
  | closeAssignModal => simp [Action.effects, onCloseAssignModalClick] at h
  | dismissError => simp [Action.effects] at h
  | setActiveTab tab => simp [Action.effects] at h
  | openCreateMechanicModal => simp [Action.effects] at h
  | closeCreateMechanicModal => simp [Action.effects] at h
  | editNewMechanic value => simp [Action.effects] at h

/-- A property of the selected task that every selection in a trace establishes
holds after the trace, if it held before. -/
theorem run_selectedTask (P : Task → Prop) (es : List Effect) (s : Dashboard)
    (hes : ∀ t, Effect.setSelectedTask (some t) ∈ es → P t)
    (hs : ∀ t, s.selectedTask = some t → P t) :
    ∀ t, (s.run es).selectedTask = some t → P t := by
  induction es generalizing s with
  | nil => exact hs
  | cons e rest ih =>
    rw [run_cons]
    apply ih
    · exact fun t ht => hes t (List.mem_cons_of_mem _ ht)
    · intro t ht
      cases e with
      | setSelectedTask v =>
        have hv : v = some t := ht
        subst hv
        exact hes t (List.mem_cons_self _ _)
      | _ => exact hs t ht

theorem performAll_selectedTask (P : Task → Prop)
    (hP : ∀ (s : Dashboard) (action : Action) (t : Task),
      Effect.setSelectedTask (some t) ∈ action.effects s → P t)
    (actions : List Action) (s : Dashboard) (hs : ∀ t, s.selectedTask = some t → P t) :
    ∀ t, (s.performAll actions).selectedTask = some t → P t := by
  induction actions generalizing s with
  | nil => exact hs
  | cons action rest ih =>
    exact ih (s.perform action) (run_selectedTask P _ s (hP s action) hs)

/-- In every state the component reaches, a selected task came from an assign
button: its type is "appointment" or "emergency" and it has no assigned mechanic. -/
theorem reachable_selectedTask (actions : List Action) (t : Task)
    (h : (({} : Dashboard).performAll actions).selectedTask = some t) :
    (t.taskType = some "appointment" ∨ t.taskType = some "emergency") ∧
      isSet t.assignedMechanic = false := by
  refine performAll_selectedTask
    (fun t => (t.taskType = some "appointment" ∨ t.taskType = some "emergency") ∧
      isSet t.assignedMechanic = false) ?_ actions {} ?_ t h
  · intro s action t ht
    rcases action_selects s action t ht with ⟨a, _, ho, rfl⟩ | ⟨e, _, ho, rfl⟩
    · exact ⟨Or.inl rfl, by simpa [assignButtonOffered] using ho⟩
    · exact ⟨Or.inr rfl, by simpa [assignButtonOffered] using ho⟩
  · intro t ht
    cases ht

/-- C27. In every state the component reaches, a selected task has task type
"appointment", with required specialization "doorstep-service", or task type
"emergency", with required specialization "emergency-repair": the else branch of
the choice is taken for "emergency" only. The type is "appointment" when the task is
selected from the appointments collection and "emergency" when it is selected from
the emergencies collection. -/
theorem selectedTask_taskType :
    (∀ (actions : List Action) (t : Task),
      (({} : Dashboard).performAll actions).selectedTask = some t →
        (t.taskType = some "appointment" ∧
            requiredSpecializations t = ["doorstep-service"]) ∨
          (t.taskType = some "emergency" ∧
            requiredSpecializations t = ["emergency-repair"])) ∧
    (∀ (s : Dashboard) (a : Appointment), a ∈ s.appointments →
      assignButtonOffered a.assignedMechanic = true →
        (s.perform (.assignAppointment a)).selectedTask =
          some ⟨a._id, a.status, a.assignedMechanic, some "appointment"⟩) ∧
    (∀ (s : Dashboard) (e : Emergency), e ∈ s.emergencies →
      assignButtonOffered e.assignedMechanic = true →
        (s.perform (.assignEmergency e)).selectedTask =
          some ⟨e._id, e.status, e.assignedMechanic, some "emergency"⟩) := by
  refine ⟨?_, ?_, ?_⟩
  · intro actions t h
    rcases (reachable_selectedTask actions t h).1 with ht | ht
    · exact Or.inl ⟨ht, by simp [requiredSpecializations, ht]⟩
    · exact Or.inr ⟨ht, by simp [requiredSpecializations, ht]⟩
  · intro s a ha ho
    simp [Dashboard.perform, Action.effects, ha, ho, onAssignAppointmentClick,
      Dashboard.run, Dashboard.step]
  · intro s e he ho
    simp [Dashboard.perform, Action.effects, he, ho, onAssignEmergencyClick,
      Dashboard.run, Dashboard.step]

/-- After a refresh that lists an unassigned emergency, its assign button is
clicked: the selected task has type "emergency" and needs "emergency-repair". -/
theorem selectedTask_taskType_witness :
    (({} : Dashboard).performAll
        [.fetchAllData ⟨.ok ⟨none⟩, .ok ⟨some [⟨"e1", some "pending", none⟩]⟩, .ok ⟨none⟩,
            .ok ⟨none⟩⟩ [0, 1, 2, 3] true,
          .assignEmergency ⟨"e1", some "pending", none⟩]).selectedTask =
      some ⟨"e1", some "pending", none, some "emergency"⟩ ∧
    requiredSpecializations ⟨"e1", some "pending", none, some "emergency"⟩ =
      ["emergency-repair"] :=
  have hsel : (({} : Dashboard).performAll
        [.fetchAllData ⟨.ok ⟨none⟩, .ok ⟨some [⟨"e1", some "pending", none⟩]⟩, .ok ⟨none⟩,
            .ok ⟨none⟩⟩ [0, 1, 2, 3] true,
          .assignEmergency ⟨"e1", some "pending", none⟩]).selectedTask =
      some ⟨"e1", some "pending", none, some "emergency"⟩ := by
    simp [Dashboard.performAll, Dashboard.perform, Action.effects, fetchAllData_run,
      promiseAll, fetchAppointments_run, fetchEmergencies_run, fetchInquiries_run,
      fetchMechanics_run, stored, beforeSuspend, afterSuspend, Dashboard.run, Dashboard.step,
      assignButtonOffered, isSet, onAssignEmergencyClick]
  ⟨hsel, ((selectedTask_taskType.1 _ _ hsel).resolve_left (by simp)).2⟩

/-! ## Assigned mechanics are never cleared -/

/-- The task records a refresh writes are the ones its own list requests delivered. -/
theorem fetchAllData_task_writes (api : ListOutcomes) (order : List Nat) (showLoader : Bool) :
    (∀ v, Effect.setAppointments v ∈ (fetchAllData api order showLoader).effects →
      v = stored api.getAppointments) ∧
    (∀ v, Effect.setEmergencies v ∈ (fetchAllData api order showLoader).effects →
      v = stored api.getEmergencies) := by
  constructor <;> intro v h <;>
    rcases effects_of_fetchAllData api order showLoader _ h with
      ⟨_, w, h⟩ | h | ⟨c, h⟩ | h | ⟨m, h⟩ | h | h | h | h <;> cases h <;> rfl

/-- An `assignTask` request comes from the assign modal only: it is for the selected
task and names one of that task's candidates. -/
theorem action_assignTask (s : Dashboard) (action : Action) (mechanicId taskId : String)
    (taskType : Option String)
    (h : Effect.request (.assignTask mechanicId taskId taskType) ∈ action.effects s) :
    ∃ t m, s.selectedTask = some t ∧ m ∈ getFilteredMechanics t s.mechanics ∧
      mechanicId = m._id ∧ taskId = t._id ∧ taskType = t.taskType := by
  cases action with
  | fetchAllData api order showLoader =>
    exact absurd h (not_assignTask_fetchAllData api order showLoader _ _ _)
  | handleCreateMechanic registerMechanic getMechanics =>
    simp only [Action.effects] at h
    split_ifs at h
    · rcases handleCreateMechanic_cases s.newMechanic registerMechanic getMechanics with
        hc | hc | ⟨error, hc⟩ | hc
      · rw [hc] at h; simp at h
      · rw [hc] at h; simp at h
      · rw [hc] at h; simp at h
      · rw [hc, fetchMechanics_run] at h
        cases getMechanics <;> simp at h
    · cases h
  | handleAssignTask mechanic assignTask api order =>
    simp only [Action.effects] at h
    split at h
    · rename_i selectedTask hsel
      split_ifs at h with hg
      · have hreq : mechanicId = mechanic._id ∧ taskId = selectedTask._id ∧
            taskType = selectedTask.taskType := by
          rcases assignTask with error | ⟨⟩
          · rw [handleAssignTask_error] at h; simpa using h
          · rw [handleAssignTask_ok] at h
            simpa [not_assignTask_fetchAllData] using h
        exact ⟨selectedTask, mechanic, hsel, hg.2, hreq.1, hreq.2.1, hreq.2.2⟩
      · cases h
    · cases h
  | updateAppointmentStatus appointment status updateAppointment getAppointments =>
    simp only [Action.effects] at h
    split_ifs at h
    · rcases updateAppointment with error | ⟨⟩
      · rw [updateAppointmentStatus_error] at h; simp at h
      · rw [updateAppointmentStatus_ok, fetchAppointments_run] at h
        cases getAppointments <;> simp at h
    · cases h
  | updateInquiryStatus inquiry status updateInquiry getInquiries =>
    simp only [Action.effects] at h
    split_ifs at h
    · rcases updateInquiry with error | ⟨⟩
      · rw [updateInquiryStatus_error] at h; simp at h
      · rw [updateInquiryStatus_ok, fetchInquiries_run] at h
        cases getInquiries <;> simp at h
    · cases h
  | assignAppointment appointment =>
    simp only [Action.effects] at h
    split_ifs at h
    · simp [onAssignAppointmentClick] at h
    · cases h
  | assignEmergency emergency =>
    simp only [Action.effects] at h
    split_ifs at h
    · simp [onAssignEmergencyClick] at h
    · cases h
  | closeAssignModal => simp [Action.effects, onCloseAssignModalClick] at h
  | dismissError => simp [Action.effects] at h
  | setActiveTab tab => simp [Action.effects] at h
  | openCreateMechanicModal => simp [Action.effects] at h
  | closeCreateMechanicModal => simp [Action.effects] at h
  | editNewMechanic value => simp [Action.effects] at h

/-- The appointment and emergency collections are only ever written with the list
that the writing action's own list request delivered. -/
theorem action_task_writes (s : Dashboard) (action : Action) :
    (∀ v, Effect.setAppointments v ∈ action.effects s →
      match action with
      | .fetchAllData api _ _ => v = stored api.getAppointments
      | .handleAssignTask _ _ api _ => v = stored api.getAppointments
      | .updateAppointmentStatus _ _ _ getAppointments => v = stored getAppointments
      | _ => False) ∧
    (∀ v, Effect.setEmergencies v ∈ action.effects s →
      match action with
      | .fetchAllData api _ _ => v = stored api.getEmergencies
      | .handleAssignTask _ _ api _ => v = stored api.getEmergencies
      | _ => False) := by
  cases action with
  | fetchAllData api order showLoader =>
    exact ⟨(fetchAllData_task_writes api order showLoader).1,
      (fetchAllData_task_writes api order showLoader).2⟩
  | handleCreateMechanic registerMechanic getMechanics =>
    constructor <;> intro v h <;> simp only [Action.effects] at h <;> split_ifs at h <;>
      first
        | cases h
        | (rcases handleCreateMechanic_cases s.newMechanic registerMechanic getMechanics with
            hc | hc | ⟨error, hc⟩ | hc
           · rw [hc] at h; simp at h
           · rw [hc] at h; simp at h
           · rw [hc] at h; simp at h
           · rw [hc, fetchMechanics_run] at h
             cases getMechanics <;> simp at h)
  | handleAssignTask mechanic assignTask api order =>
    constructor <;> intro v h <;> simp only [Action.effects] at h <;> split at h <;>
      first
        | cases h
        | (split_ifs at h
           · rcases assignTask with error | ⟨⟩
             · rw [handleAssignTask_error] at h; simp at h
             · rw [handleAssignTask_ok] at h
               simp only [List.mem_append, List.mem_cons, List.mem_singleton,
                 List.not_mem_nil, or_false, reduceCtorEq, false_or, or_false] at h
               first
                 | exact (fetchAllData_task_writes api order false).1 v h
                 | exact (fetchAllData_task_writes api order false).2 v h
           · cases h)
  | updateAppointmentStatus appointment status updateAppointment getAppointments =>
    constructor <;> intro v h <;> simp only [Action.effects] at h <;> split_ifs at h <;>
      first
        | cases h
        | (rcases updateAppointment with error | ⟨⟩
           · rw [updateAppointmentStatus_error] at h; simp at h
           · rw [updateAppointmentStatus_ok, fetchAppointments_run] at h
             cases getAppointments <;> simp at h <;> simp [h])
  | updateInquiryStatus inquiry status updateInquiry getInquiries =>
    constructor <;> intro v h <;> simp only [Action.effects] at h <;> split_ifs at h <;>
      first
        | cases h
        | (rcases updateInquiry with error | ⟨⟩
           · rw [updateInquiryStatus_error] at h; simp at h
           · rw [updateInquiryStatus_ok, fetchInquiries_run] at h
             cases getInquiries <;> simp at h)
  | assignAppointment appointment =>
    constructor <;> intro v h <;> simp only [Action.effects] at h <;> split_ifs at h <;>
      simp [onAssignAppointmentClick] at h
  | assignEmergency emergency =>
    constructor <;> intro v h <;> simp only [Action.effects] at h <;> split_ifs at h <;>
      simp [onAssignEmergencyClick] at h
  | closeAssignModal =>
    constructor <;> intro v h <;> simp [Action.effects, onCloseAssignModalClick] at h
  | dismissError => constructor <;> intro v h <;> simp [Action.effects] at h
  | setActiveTab tab => constructor <;> intro v h <;> simp [Action.effects] at h
  | openCreateMechanicModal => constructor <;> intro v h <;> simp [Action.effects] at h
  | closeCreateMechanicModal => constructor <;> intro v h <;> simp [Action.effects] at h
  | editNewMechanic value => constructor <;> intro v h <;> simp [Action.effects] at h

/-- C23. An assigned mechanic is never cleared. The assign button is rendered exactly
for a record whose `assignedMechanic` is missing or empty, so in every state the
component reaches the selected task has none. The only request that names a task's
mechanic is `assignTask`, issued from the assign modal for the selected task with
the id of one of its candidates. A status update requests the update with the
record's id and the new status, and then the appointment list, nothing else. The
appointment and emergency collections are written only with the lists that the
writing action's own list requests delivered. -/
theorem assignedMechanic_never_cleared :
    (∀ assignedMechanic : Option String,
      assignButtonOffered assignedMechanic = true ↔
        assignedMechanic = none ∨ assignedMechanic = some "") ∧
    (∀ (actions : List Action) (t : Task),
      (({} : Dashboard).performAll actions).selectedTask = some t →
        t.assignedMechanic = none ∨ t.assignedMechanic = some "") ∧
    (∀ (actions : List Action) (action : Action) (mechanicId taskId : String)
        (taskType : Option String),
      Effect.request (.assignTask mechanicId taskId taskType) ∈
          action.effects (({} : Dashboard).performAll actions) →
        ∃ t m, (({} : Dashboard).performAll actions).selectedTask = some t ∧
          (t.assignedMechanic = none ∨ t.assignedMechanic = some "") ∧
          taskId = t._id ∧ taskType = t.taskType ∧
          m ∈ (({} : Dashboard).performAll actions).mechanics ∧ mechanicId = m._id) ∧
    (∀ (s : Dashboard) (a : Appointment) (status : String)
        (updateAppointment : Except JSError Unit)
        (getAppointments : Except JSError (Response Appointment)) (c : ApiCall),
      Effect.request c ∈
          (Action.updateAppointmentStatus a status updateAppointment getAppointments).effects
            s →
        c = .updateAppointment a._id status ∨ c = .getAppointments) ∧
    (∀ (s : Dashboard) (action : Action),
      (∀ v, Effect.setAppointments v ∈ action.effects s →
        match action with
        | .fetchAllData api _ _ => v = stored api.getAppointments
        | .handleAssignTask _ _ api _ => v = stored api.getAppointments
        | .updateAppointmentStatus _ _ _ getAppointments => v = stored getAppointments
        | _ => False) ∧
      (∀ v, Effect.setEmergencies v ∈ action.effects s →
        match action with
        | .fetchAllData api _ _ => v = stored api.getEmergencies
        | .handleAssignTask _ _ api _ => v = stored api.getEmergencies
        | _ => False)) := by
  have hset : ∀ am : Option String, isSet am = false ↔ am = none ∨ am = some "" := by
    intro am
    cases am with
    | none => simp [isSet]
    | some v => simp [isSet]
  refine ⟨?_, ?_, ?_, ?_, action_task_writes⟩
  · intro am
    rw [← hset]
    simp [assignButtonOffered]
  · intro actions t h
    exact (hset _).1 (reachable_selectedTask actions t h).2
  · intro actions action mechanicId taskId taskType h
    obtain ⟨t, m, hsel, hm, h1, h2, h3⟩ := action_assignTask _ action _ _ _ h
    refine ⟨t, m, hsel, (hset _).1 (reachable_selectedTask actions t hsel).2, h2, h3, ?_, h1⟩
    unfold getFilteredMechanics at hm
    rw [mem_sort] at hm
    exact (List.mem_filter.1 hm).1
  · intro s a status updateAppointment getAppointments c h
    simp only [Action.effects] at h
    split_ifs at h
    · rcases updateAppointment with error | ⟨⟩
      · rw [updateAppointmentStatus_error] at h
        simp at h
        exact Or.inl h
      · rw [updateAppointmentStatus_ok, fetchAppointments_run] at h
        cases getAppointments <;> simp at h <;> rcases h with h | h <;> simp [h]
    · cases h

/-- A listed appointment that already has a mechanic: its assign button is not
rendered, and clicking nothing selects nothing. -/
theorem assignedMechanic_never_cleared_witness :
    assignButtonOffered (some "m7") = false ∧
      (({ appointments := [⟨"a1", some "confirmed", some "m7"⟩] } : Dashboard).perform
        (.assignAppointment ⟨"a1", some "confirmed", some "m7"⟩)).selectedTask = none :=
  ⟨by
      have h := (assignedMechanic_never_cleared.1 (some "m7")).not
      simpa using h,
    by decide⟩

/-! ## Scheduler invariant -/

/-- C28. In every state reached from mount by any sequence of `startPolling`,
`stopPolling`, visibility events, timer firings and teardown, at most one timer is
active, the stored handle is non-null exactly when a timer is active, and an
active timer is the one whose handle is stored. -/
theorem scheduler_invariant (lastTimerId : Nat) (events : List Event) :
    ((mounted lastTimerId).after events).intervals.length ≤ 1 ∧
    (((mounted lastTimerId).after events).intervalRef ≠ none ↔
      ((mounted lastTimerId).after events).intervals ≠ []) ∧
    (∀ t ∈ ((mounted lastTimerId).after events).intervals,
      ((mounted lastTimerId).after events).intervalRef = some t.id ∧ t.id ≠ 0) := by
  obtain ⟨hc, _⟩ := coherent_after events (mounted lastTimerId)
    (coherent_mounted lastTimerId).1 (coherent_mounted lastTimerId).2
  generalize (mounted lastTimerId).after events = h at hc
  unfold Coherent at hc
  cases hr : h.intervalRef with
  | none =>
    rw [hr] at hc
    simp [hc]
  | some id =>
    rw [hr] at hc
    obtain ⟨hid, hi⟩ := hc
    simp [hi, hid]

/-! ## The candidate list is a fresh array -/

/-- C26. Computing the candidates leaves the mechanics array as it was, element for
element, and every other array too: the result is a newly allocated array, which
holds what `getFilteredMechanics` computes from the collection, and the in-place
sort is applied to that new array. -/
theorem getFilteredMechanics_keeps_collection (selectedTask : Task) (mechanics : Nat)
    (h : Heap) (hm : mechanics < h.arrays.length) :
    ((getFilteredMechanicsOnHeap selectedTask mechanics h).2.read mechanics =
      h.read mechanics) ∧
    (∀ ref, ref < h.arrays.length →
      (getFilteredMechanicsOnHeap selectedTask mechanics h).2.read ref = h.read ref) ∧
    (getFilteredMechanicsOnHeap selectedTask mechanics h).1 = h.arrays.length ∧
    (getFilteredMechanicsOnHeap selectedTask mechanics h).1 ≠ mechanics ∧
    ((getFilteredMechanicsOnHeap selectedTask mechanics h).2.read
        (getFilteredMechanicsOnHeap selectedTask mechanics h).1 =
      getFilteredMechanics selectedTask (h.read mechanics)) := by
  have hkeep : ∀ ref, ref < h.arrays.length →
      (getFilteredMechanicsOnHeap selectedTask mechanics h).2.read ref = h.read ref := by
    intro ref hr
    simp only [getFilteredMechanicsOnHeap, Heap.sort, Heap.filter, Heap.read, List.getD_eq_getElem?_getD]
    rw [List.getElem?_set_ne (Nat.ne_of_gt hr), List.getElem?_append_left hr]
  refine ⟨hkeep mechanics hm, hkeep, rfl, ?_, ?_⟩
  · show h.arrays.length ≠ mechanics
    exact Nat.ne_of_gt hm
  · simp [getFilteredMechanicsOnHeap, Heap.sort, Heap.filter, Heap.read, getFilteredMechanics]

/-- A collection of two mechanics, the better rated one second: the collection keeps
its order, the candidate array has the better rated one first. -/
theorem getFilteredMechanics_keeps_collection_witness :
    (getFilteredMechanicsOnHeap ⟨"t1", none, none, some "appointment"⟩ 0
        ⟨[[⟨"m1", "Asha", some "available", some ["doorstep-service"], .num 3, .num 1⟩,
           ⟨"m2", "Ravi", some "available", some ["doorstep-service"], .num 5, .num 2⟩]]⟩).2.read
        0 =
      [⟨"m1", "Asha", some "available", some ["doorstep-service"], .num 3, .num 1⟩,
       ⟨"m2", "Ravi", some "available", some ["doorstep-service"], .num 5, .num 2⟩] :=
  (getFilteredMechanics_keeps_collection ⟨"t1", none, none, some "appointment"⟩ 0
    ⟨[[⟨"m1", "Asha", some "available", some ["doorstep-service"], .num 3, .num 1⟩,
       ⟨"m2", "Ravi", some "available", some ["doorstep-service"], .num 5, .num 2⟩]]⟩
    (by decide)).1

/-! ## Calls in flight -/

/-- The first part of a trace is what runs before the first suspension. -/
theorem segments_first (es : List Effect) :
    ∃ rest, segments es = beforeSuspend es :: rest := by
  induction es with
  | nil => exact ⟨[], rfl⟩
  | cons e tl ih =>
    obtain ⟨rest, hrest⟩ := ih
    by_cases he : e = .suspend
    · subst he
      exact ⟨(Effect.suspend :: beforeSuspend tl) :: rest, by
        simp [segments, hrest, beforeSuspend]⟩
    · exact ⟨rest, by simp [segments, hrest, beforeSuspend, he]⟩

theorem call_dashboard (p : Page) (trace : List Effect) :
    (p.call trace).dashboard = p.dashboard.run (beforeSuspend trace) := by
  obtain ⟨rest, hrest⟩ := segments_first trace
  simp [Page.call, hrest]

theorem beforeSuspend_append (before rest : List Effect) (h : ∀ e ∈ before, e ≠ .suspend) :
    beforeSuspend (before ++ rest) = before ++ beforeSuspend rest := by
  unfold beforeSuspend
  rw [List.takeWhile_append_of_pos]
  intro e he
  simpa using h e he

/-- As soon as the synchronous part of a refresh has run, the error flag is `null`. -/
theorem beforeSuspend_fetchAllData_error (api : ListOutcomes) (order : List Nat)
    (showLoader : Bool) (s : Dashboard) :
    (s.run (beforeSuspend (fetchAllData api order showLoader).effects)).error = none := by
  apply run_last (fun d => d.error)
  · intro e he
    have hin : e ∈ (fetchAllData api order showLoader).effects :=
      (List.takeWhile_sublist _).subset he
    rcases effects_of_fetchAllData api order showLoader e hin with
      ⟨_, v, rfl⟩ | rfl | ⟨c, rfl⟩ | rfl | ⟨m, rfl⟩ | rfl | rfl | rfl | rfl <;>
    first
      | exact Or.inl (fun _ => rfl)
      | exact Or.inr (fun _ => rfl)
  · refine ⟨.setError none, ?_, fun _ => rfl⟩
    rw [fetchAllData_run]
    simp only [List.append_assoc]
    rw [beforeSuspend_append]
    · simp [beforeSuspend]
    · intro e he
      cases showLoader <;> simp at he
      subst he
      simp

/-- A call that logs and then refreshes leaves the error flag `null` at once. -/
theorem call_refresh_error (p : Page) (before : List Effect) (api : ListOutcomes)
    (order : List Nat) (showLoader : Bool) (h : ∀ e ∈ before, e ≠ .suspend) :
    (p.call (before ++ (fetchAllData api order showLoader).effects)).dashboard.error =
      none := by
  rw [call_dashboard, beforeSuspend_append _ _ h, run_append]
  exact beforeSuspend_fetchAllData_error api order showLoader _

theorem hostStep_of_invoked (p : Page) (api : ListOutcomes) (order : List Nat) (e : Event)
    (added : List Invocation) (hne : added ≠ [])
    (h : (p.host.step e).invoked = p.host.invoked ++ added) :
    p.hostStep api order e =
      { p with host := p.host.step e }.call
        (added.map (Invocation.effects api order)).flatten := by
  unfold Page.hostStep
  rw [h, List.drop_left]
  simp [hne]

theorem hostStep_of_silent (p : Page) (api : ListOutcomes) (order : List Nat) (e : Event)
    (h : (p.host.step e).invoked = p.host.invoked) :
    p.hostStep api order e = { p with host := p.host.step e } := by
  unfold Page.hostStep
  rw [h, List.drop_length]
  simp

theorem fireInterval_running (h : Host) (id : Nat) (hc : Coherent h)
    (hr : h.intervalRef = some id) :
    (fireInterval id h).invoked =
      h.invoked ++ [.consoleLog "Auto-updating dashboard data...", .fetchAllData false] := by
  unfold Coherent at hc
  rw [hr] at hc
  simp [fireInterval, hc.2]

/-- C29. Every refresh, silent or not, sets the error flag to `null` in its
synchronous part, before any request and before anything is awaited: the flag is
`null` as soon as the call has been made. So on a running scheduler the poll timer's
firing, and on a mounted page the tab becoming visible, leave the error flag `null`
whatever message it held. -/
theorem refresh_clears_error :
    (∀ (api : ListOutcomes) (order : List Nat) (showLoader : Bool),
      ∃ before rest, (fetchAllData api order showLoader).effects =
          before ++ Effect.setError none :: rest ∧
        ∀ e ∈ before, isRequest e = false ∧ e ≠ .suspend) ∧
    (∀ (api : ListOutcomes) (order : List Nat) (showLoader : Bool) (p : Page),
      (p.call (fetchAllData api order showLoader).effects).dashboard.error = none) ∧
    (∀ (api : ListOutcomes) (order : List Nat) (p : Page) (id : Nat),
      Coherent p.host → p.host.intervalRef = some id →
        (p.hostStep api order (.tick id)).dashboard.error = none) ∧
    (∀ (api : ListOutcomes) (order : List Nat) (p : Page),
      p.host.visibilityListeners = 1 →
        (p.hostStep api order (.visibilityChange "visible")).dashboard.error = none) := by
  refine ⟨?_, ?_, ?_, ?_⟩
  · intro api order showLoader
    refine ⟨if showLoader then [.setLoading true] else [],
      (promiseAll [fetchAppointments api.getAppointments,
        fetchEmergencies api.getEmergencies, fetchInquiries api.getInquiries,
        fetchMechanics api.getMechanics] order).effects ++
        (if showLoader then [.setLoading false] else []), ?_, ?_⟩
    · rw [fetchAllData_run]
      simp
    · intro e he
      cases showLoader <;> simp at he
      subst he
      exact ⟨rfl, by simp⟩
  · intro api order showLoader p
    have := call_refresh_error p [] api order showLoader (by simp)
    simpa using this
  · intro api order p id hc hr
    rw [hostStep_of_invoked p api order (.tick id)
      [.consoleLog "Auto-updating dashboard data...", .fetchAllData false] (by simp)
      (fireInterval_running p.host id hc hr)]
    have := call_refresh_error { p with host := p.host.step (.tick id) }
      [.console "Auto-updating dashboard data..."] api order false (by simp)
    simpa [Invocation.effects] using this
  · intro api order p hl
    have hinv : (p.host.step (.visibilityChange "visible")).invoked =
        p.host.invoked ++ [.consoleLog "Tab visible: refreshing data", .fetchAllData false] := by
      show (dispatchVisibilityChange "visible" p.host).invoked = _
      unfold dispatchVisibilityChange
      rw [hl]
      show (handleVisibilityChange "visible" p.host).invoked = _
      rw [handleVisibilityChange_visible]
      exact (startPolling_frame _).1
    rw [hostStep_of_invoked p api order _ _ (by simp) hinv]
    have := call_refresh_error { p with host := p.host.step (.visibilityChange "visible") }
      [.console "Tab visible: refreshing data"] api order false (by simp)
    simpa [Invocation.effects] using this

/-- A failed assignment has left its message in the error flag; the poll timer fires
and the message is gone. -/
theorem refresh_clears_error_witness :
    (({ host := mounted 0,
        dashboard := { error := some "Assignment failed: Network Error" } } : Page).hostStep
        ⟨.ok ⟨none⟩, .ok ⟨none⟩, .ok ⟨none⟩, .ok ⟨none⟩⟩ [0, 1, 2, 3]
        (.tick 1)).dashboard.error = none :=
  refresh_clears_error.2.2.1 _ _
    { host := mounted 0, dashboard := { error := some "Assignment failed: Network Error" } }
    1 (by decide) (by decide)

/-- C25. Nothing orders the responses of overlapping refreshes and nothing cancels a
call in flight. Two refreshes overlap, the first delivering the older appointment
list: there is an order of settling in which the first refresh's responses are
applied after the second's, and the collection ends up equal to the older list
(applied in the order of the calls it would hold the newer one). `stopPolling` and
teardown change neither a call in flight nor the state; a refresh started by the
poll timer and still in flight at teardown applies its list afterwards, although
no timer is active any more. -/
theorem stale_response_overwrites :
    (∃ schedule : List Nat,
      (((({} : Page).call
          (fetchAllData ⟨.ok ⟨some [⟨"a-old", some "pending", none⟩]⟩, .ok ⟨none⟩,
            .ok ⟨none⟩, .ok ⟨none⟩⟩ [0, 1, 2, 3] true).effects).call
          (fetchAllData ⟨.ok ⟨some [⟨"a-new", some "confirmed", some "m1"⟩]⟩, .ok ⟨none⟩,
            .ok ⟨none⟩, .ok ⟨none⟩⟩ [0, 1, 2, 3] false).effects).resumeAll
          schedule).dashboard.appointments = [⟨"a-old", some "pending", none⟩] ∧
      (((({} : Page).call
          (fetchAllData ⟨.ok ⟨some [⟨"a-old", some "pending", none⟩]⟩, .ok ⟨none⟩,
            .ok ⟨none⟩, .ok ⟨none⟩⟩ [0, 1, 2, 3] true).effects).call
          (fetchAllData ⟨.ok ⟨some [⟨"a-new", some "confirmed", some "m1"⟩]⟩, .ok ⟨none⟩,
            .ok ⟨none⟩, .ok ⟨none⟩⟩ [0, 1, 2, 3] false).effects).resumeAll
          schedule).pending = [[], []]) ∧
    (((({} : Page).call
        (fetchAllData ⟨.ok ⟨some [⟨"a-old", some "pending", none⟩]⟩, .ok ⟨none⟩,
          .ok ⟨none⟩, .ok ⟨none⟩⟩ [0, 1, 2, 3] true).effects).call
        (fetchAllData ⟨.ok ⟨some [⟨"a-new", some "confirmed", some "m1"⟩]⟩, .ok ⟨none⟩,
          .ok ⟨none⟩, .ok ⟨none⟩⟩ [0, 1, 2, 3] false).effects).resumeAll
        [0, 0, 0, 0, 1, 1, 1, 1]).dashboard.appointments =
      [⟨"a-new", some "confirmed", some "m1"⟩] ∧
    (∀ (p : Page) (api : ListOutcomes) (order : List Nat),
      (p.hostStep api order .teardown).pending = p.pending ∧
        (p.hostStep api order .teardown).dashboard = p.dashboard ∧
        (p.hostStep api order .stopPolling).pending = p.pending ∧
        (p.hostStep api order .stopPolling).dashboard = p.dashboard) ∧
    ((((({ host := mounted 0 } : Page).hostStep
          ⟨.ok ⟨some [⟨"a1", some "pending", none⟩]⟩, .ok ⟨none⟩, .ok ⟨none⟩, .ok ⟨none⟩⟩
          [0, 1, 2, 3] (.tick 1)).hostStep
          ⟨.ok ⟨none⟩, .ok ⟨none⟩, .ok ⟨none⟩, .ok ⟨none⟩⟩ [0, 1, 2, 3] .teardown).host.intervals =
        []) ∧
      (((({ host := mounted 0 } : Page).hostStep
          ⟨.ok ⟨some [⟨"a1", some "pending", none⟩]⟩, .ok ⟨none⟩, .ok ⟨none⟩, .ok ⟨none⟩⟩
          [0, 1, 2, 3] (.tick 1)).hostStep
          ⟨.ok ⟨none⟩, .ok ⟨none⟩, .ok ⟨none⟩, .ok ⟨none⟩⟩ [0, 1, 2, 3] .teardown).resumeAll
          [0, 0, 0, 0]).dashboard.appointments = [⟨"a1", some "pending", none⟩]) := by
  refine ⟨⟨[1, 1, 1, 1, 0, 0, 0, 0], by decide, by rfl⟩, by decide, ?_, by decide, by decide⟩
  intro p api order
  have ht : (p.host.step .teardown).invoked = p.host.invoked :=
    (stopPolling_frame p.host).1
  have hs : (p.host.step .stopPolling).invoked = p.host.invoked :=
    (stopPolling_frame p.host).1
  rw [hostStep_of_silent p api order _ ht, hostStep_of_silent p api order _ hs]
  exact ⟨rfl, rfl, rfl, rfl⟩

end Roadengo
